import Mathlib

/-!
Verification development for `mx_javamodules.py` (module-descriptor synthesis
for Java modules from build distributions).

Python dicts are embedded as association lists `List (String × β)` whose list
order models the dict's iteration order; Python sets and frozensets are
embedded as `List String` whose order models the set's iteration order
(insertion-order deduplicated).  All definitions are translated from
`src/mx_javamodules.py` except those whose doc comment starts with
`Modelled from the spec:`, which stand for repository code (the `mx` support
module) that is not part of the provided sources.
-/

namespace MxJavaModules

/-- `dictGet k l` is Python `l.get(k)` on a dict embedded as an association
list: the value of the first pair whose key is `k`. -/
def dictGet {β : Type} (k : String) (l : List (String × β)) : Option β :=
  (l.find? (fun p => p.1 == k)).map Prod.snd

/-- Python dict assignment `l[k] = v`: overwrite the value at `k` if the key
is present, otherwise append the binding. -/
def dictSet {β : Type} (k : String) (v : β) (l : List (String × β)) :
    List (String × β) :=
  if l.any (fun p => p.1 == k) then
    l.map (fun p => if p.1 == k then (p.1, v) else p)
  else l ++ [(k, v)]

/-- Python `l.setdefault(k, v)` (the dict after the call): insert `(k, v)`
only when `k` is absent. -/
def dictSetdefault {β : Type} (k : String) (v : β) (l : List (String × β)) :
    List (String × β) :=
  if l.any (fun p => p.1 == k) then l else l ++ [(k, v)]

/-- Python `s.add(x)` on a set embedded as a list. -/
def setAdd (l : List String) (x : String) : List String :=
  if x ∈ l then l else l ++ [x]

/-- Python `s.update(xs)` on a set embedded as a list. -/
def setUnion (l xs : List String) : List String :=
  xs.foldl setAdd l

/-- Python `l.setdefault(k, set()).add(x)`. -/
def dictAddTo (k : String) (x : String) (l : List (String × List String)) :
    List (String × List String) :=
  if l.any (fun p => p.1 == k) then
    l.map (fun p => if p.1 == k then (p.1, setAdd p.2 x) else p)
  else l ++ [(k, [x])]

/-- Python `l.setdefault(k, set()).update(xs)`. -/
def dictUnionAt (k : String) (xs : List String)
    (l : List (String × List String)) : List (String × List String) :=
  if l.any (fun p => p.1 == k) then
    l.map (fun p => if p.1 == k then (p.1, setUnion p.2 xs) else p)
  else l ++ [(k, setUnion [] xs)]

/-- Byte-wise (code-point) comparison of character lists, the order Python's
`sorted` uses on strings; defined by recursion so that it evaluates on
concrete inputs. -/
def charListLe : List Char → List Char → Bool
  | [], _ => true
  | _ :: _, [] => false
  | a :: as, b :: bs =>
    if a < b then true
    else if b < a then false
    else charListLe as bs

/-- Python string comparison `a <= b` (code-point lexicographic). -/
def strLe (a b : String) : Prop := charListLe a.data b.data = true

instance : DecidableRel strLe := fun a b =>
  inferInstanceAs (Decidable (charListLe a.data b.data = true))

/-- Python `sorted` on a list of strings. -/
def sortStrs (l : List String) : List String :=
  l.insertionSort strLe

/-- Comparison used by Python's `sorted(d.iteritems())` on a dict: pairs are
ordered by their key (keys of a dict are distinct, so the value component is
never consulted). -/
def keyLe (a b : String × List String) : Prop := strLe a.1 b.1

instance : DecidableRel keyLe := fun a b =>
  inferInstanceAs (Decidable (strLe a.1 b.1))

/-- Python `sorted(d.iteritems())` on a dict embedded as an association
list. -/
def sortPairs (l : List (String × List String)) : List (String × List String) :=
  l.insertionSort keyLe

/-- Python `s.startswith(pre)`, computed on the character lists. -/
def strStartsWith (s pre : String) : Bool := pre.data.isPrefixOf s.data

/-- Python `c in s` for a single character `c`. -/
def strContains (s : String) (c : Char) : Bool := s.data.contains c

/-- Python `s.lower()`. -/
def strToLower (s : String) : String := ⟨s.data.map Char.toLower⟩

/-- Python `s.replace(a, b)` for one-character `a` and `b` (the only shape
`mx_javamodules.py` uses): every occurrence of `a` becomes `b`. -/
def strReplace1 (a b : Char) (s : String) : String :=
  ⟨s.data.map (fun c => if c = a then b else c)⟩

/-- The value list of every binding sorted: two association lists embed the
same dict of sets up to iteration order exactly when their `canonVals` are
permutations of each other (and their keys are duplicate-free). -/
def canonVals (l : List (String × List String)) : List (String × List String) :=
  l.map (fun p => (p.1, sortStrs p.2))

/-! ## The dependency-graph model

Dependencies of the host build tool (`mx` distributions, projects and
libraries) are opaque foreign objects for `mx_javamodules.py`.  They are
embedded as finite trees: `deps` are the static dependency edges walked by
`mx.walk_deps` and `moduledeps` is the optional attribute read by
`get_module_deps`.  Object identity of the Python objects is represented by
name equality. -/

inductive DepKind where
  | jarDistribution
  | javaProject
  | jreLibrary
  | jdkLibrary
  | other
  deriving DecidableEq, Repr

/-- The non-recursive attributes of an `mx` dependency object probed by
`mx_javamodules.py` (`getattr` reads of optional attributes are embedded as
`Option`/default-empty fields). -/
structure DepInfo where
  name : String
  kind : DepKind
  definedJavaPackages : List String
  importedJavaPackages : List String
  importsAttr : List String
  usesAttr : List String
  runtimeDepsAttr : List String
  exportsAttr : Option (List String)
  moduleNameAttr : Option String
  deriving Repr

/-- An `mx` dependency object together with its outgoing dependency edges
(`deps`, walked by `mx.walk_deps`) and its `moduledeps` attribute. -/
inductive Dep where
  | mk (info : DepInfo) (deps : List Dep) (moduledeps : List Dep)

def Dep.info : Dep → DepInfo
  | .mk i _ _ => i

def Dep.deps : Dep → List Dep
  | .mk _ d _ => d

def Dep.moduledeps : Dep → List Dep
  | .mk _ _ m => m

def Dep.name (d : Dep) : String := d.info.name

def Dep.isJARDistribution (d : Dep) : Bool := d.info.kind == .jarDistribution

def Dep.isJavaProject (d : Dep) : Bool := d.info.kind == .javaProject

def Dep.isJreLibrary (d : Dep) : Bool := d.info.kind == .jreLibrary

def Dep.isJdkLibrary (d : Dep) : Bool := d.info.kind == .jdkLibrary

/-! ## The module-descriptor data model -/

/-- The non-recursive fields of `JavaModuleDescriptor`. -/
structure JMDFields where
  name : String
  exports : List (String × List String)
  requires : List (String × List String)
  concealedRequires : List (String × List String)
  uses : List String
  provides : List (String × List String)
  packages : List String
  conceals : List String
  jarpath : Option String
  dist : Option Dep
  boot : Bool

/-- `JavaModuleDescriptor`: `modulepath` recursively holds the descriptors of
the module dependencies of this module, as in the Python class. -/
inductive JavaModuleDescriptor where
  | mk (fields : JMDFields) (modulepath : List JavaModuleDescriptor)

namespace JavaModuleDescriptor

def fields : JavaModuleDescriptor → JMDFields
  | .mk f _ => f

def modulepath : JavaModuleDescriptor → List JavaModuleDescriptor
  | .mk _ mp => mp

def name (j : JavaModuleDescriptor) : String := j.fields.name

def exports (j : JavaModuleDescriptor) : List (String × List String) :=
  j.fields.exports

def requires (j : JavaModuleDescriptor) : List (String × List String) :=
  j.fields.requires

def concealedRequires (j : JavaModuleDescriptor) : List (String × List String) :=
  j.fields.concealedRequires

def uses (j : JavaModuleDescriptor) : List String := j.fields.uses

def provides (j : JavaModuleDescriptor) : List (String × List String) :=
  j.fields.provides

def packages (j : JavaModuleDescriptor) : List String := j.fields.packages

def conceals (j : JavaModuleDescriptor) : List String := j.fields.conceals

def jarpath (j : JavaModuleDescriptor) : Option String := j.fields.jarpath

def dist (j : JavaModuleDescriptor) : Option Dep := j.fields.dist

def boot (j : JavaModuleDescriptor) : Bool := j.fields.boot

/-- The `self.packages` field computed by `JavaModuleDescriptor.__init__`:
`exportedPackages if packages is None else frozenset(packages)`. -/
def initPackages (exports : List (String × List String))
    (packages : Option (List String)) : List String :=
  match packages with
  | none => (exports.map Prod.fst).dedup
  | some ps => ps.dedup

/-- `JavaModuleDescriptor.__init__`.  The Python constructor converts `uses`
and `packages` to frozensets (embedded as insertion-order deduplication),
defaults `packages` to the export keys and `concealedRequires` to `{}`,
derives `conceals = packages - exports.keys()`, and asserts
`len(exports) == 0 or exportedPackages.issubset(self.packages)`; an assertion
failure is embedded as `none`. -/
def init (name : String) (exports : List (String × List String))
    (requires : List (String × List String)) (uses : List String)
    (provides : List (String × List String)) (packages : Option (List String))
    (concealedRequires : Option (List (String × List String)))
    (jarpath : Option String) (dist : Option Dep)
    (modulepath : List JavaModuleDescriptor) (boot : Bool) :
    Option JavaModuleDescriptor :=
  if exports.length = 0 ∨
      ((exports.map Prod.fst).dedup).all (fun p => p ∈ initPackages exports packages) then
    some (JavaModuleDescriptor.mk
      { name := name
        exports := exports
        requires := requires
        concealedRequires := concealedRequires.getD []
        uses := uses.dedup
        provides := provides
        packages := initPackages exports packages
        conceals := (initPackages exports packages).filter
          (fun p => p ∉ (exports.map Prod.fst).dedup)
        jarpath := jarpath
        dist := dist
        boot := boot } modulepath)
  else none

end JavaModuleDescriptor

/-- The visibility component of `lookup_package`'s result. -/
inductive Visibility where
  | exported
  | concealed
  deriving DecidableEq, Repr

/-- `lookup_package(modulepath, package, importer)`: scan the module path in
order; for the first descriptor whose `exports` has the package, report
`exported` when the target set is empty or contains the importer and
`concealed` otherwise; a descriptor concealing the package reports
`concealed`; `(None, None)` is embedded as `none`. -/
def lookup_package : List JavaModuleDescriptor → String → String →
    Option (JavaModuleDescriptor × Visibility)
  | [], _, _ => none
  | jmd :: rest, package, importer =>
    match dictGet package jmd.exports with
    | some targets =>
      if targets.length = 0 ∨ importer ∈ targets then some (jmd, .exported)
      else some (jmd, .concealed)
    | none =>
      if package ∈ jmd.conceals then some (jmd, .concealed)
      else lookup_package rest package importer

/-- `JavaModuleDescriptor.as_module_info`: the descriptor rendered as the
contents of a `module-info.java` file.  Each Python `print >> out, s` emits
`s` followed by a newline.  `sorted` calls are embedded by `sortStrs` /
`sortPairs`; the providers of a `provides` line are joined in their given
order (the Python source iterates the provider set without sorting).
Python truthiness guards (`if self.jarpath:` etc.) are false for `None`,
the empty string, the empty list and the empty dict. -/
def JavaModuleDescriptor.as_module_info (jmd : JavaModuleDescriptor) : String :=
  String.join ((
    ["module " ++ jmd.name ++ " \x7b"]
    ++ (sortPairs jmd.requires).map (fun p =>
        "    requires " ++
          (if p.2.length ≠ 0 then String.intercalate " " (sortStrs p.2) ++ " " else "") ++
          p.1 ++ ";")
    ++ (sortPairs jmd.exports).map (fun p =>
        "    exports " ++ p.1 ++
          (if p.2.length ≠ 0 then " to " ++ String.intercalate ", " (sortStrs p.2) else "")
          ++ ";")
    ++ (sortStrs jmd.uses).map (fun u => "    uses " ++ u ++ ";")
    ++ (sortPairs jmd.provides).map (fun p =>
        "    provides " ++ p.1 ++ " with " ++ String.intercalate ", " p.2 ++ ";")
    ++ (sortStrs jmd.conceals).map (fun pkg => "    // conceals: " ++ pkg)
    ++ (match jmd.jarpath with
        | some jp => if jp ≠ "" then ["    // jarpath: " ++ jp] else []
        | none => [])
    ++ ((jmd.dist.map Dep.name).map (fun n => "    // dist: " ++ n)).toList
    ++ (if jmd.modulepath.length ≠ 0 then
          ["    // modulepath: " ++
            String.intercalate ", " (jmd.modulepath.map JavaModuleDescriptor.name)]
        else [])
    ++ (if jmd.concealedRequires.length ≠ 0 then
          ((sortPairs jmd.concealedRequires).map (fun p =>
            (sortStrs p.2).map (fun package =>
              "    // concealed-requires: " ++ p.1 ++ "/" ++ package))).flatten
        else [])
    ++ ["\x7d"]).map (fun l => l ++ "\n"))

/-! ## The dependency collector (`get_module_deps`) -/

/-- Errors raised through `mx.abort(message, context=...)`, Python exceptions
and assertion failures. -/
structure MxError where
  msg : String
  context : Option String
  deriving DecidableEq, Repr

/-- The `_preVisit` callback of `get_module_deps` inverted: a dependency is
pruned from the walk when it is a JRE or JDK library. -/
def prunedB (d : Dep) : Bool := d.isJreLibrary || d.isJdkLibrary

/-- The `_visit` callback of `get_module_deps`: skip `dist` itself, collect
JAR distributions and Java projects (deduplicated), abort on anything else.
Object identity (`dep is not dist`, `dep not in moduledeps`) is embedded as
name equality. -/
def visitDep (dist : Dep) (acc : List Dep) (d : Dep) : Except MxError (List Dep) :=
  if d.name = dist.name then .ok acc
  else if d.isJavaProject || d.isJARDistribution then
    .ok (if acc.any (fun x => x.name == d.name) then acc else acc ++ [d])
  else .error ⟨"modules can (currently) only include JAR distributions and Java projects: "
      ++ d.name, some dist.name⟩

mutual

/-- Modelled from the spec: `mx.walk_deps` (the host build tool's graph
walk) is not among the provided sources.  Per the spec's dependency-collector
description it walks the roots transitively, prunes platform-provided
libraries (`_preVisit`) without descending, and applies the visitor; the
visitor runs after a node's dependencies (post-order).  The graph is embedded
as finite trees, so no separate visited set is kept; re-encountered nodes are
deduplicated by `_visit`'s own membership check. -/
def walkDep (dist : Dep) (d : Dep) (acc : List Dep) : Except MxError (List Dep) :=
  if prunedB d then .ok acc
  else
    match d with
    | .mk info deps mdeps =>
      match walkDeps dist deps acc with
      | .error e => .error e
      | .ok acc1 => visitDep dist acc1 (Dep.mk info deps mdeps)

/-- Modelled from the spec: the walk of `mx.walk_deps` over a list of
dependencies, threading the visitor's accumulator. -/
def walkDeps (dist : Dep) (ds : List Dep) (acc : List Dep) : Except MxError (List Dep) :=
  match ds with
  | [] => .ok acc
  | d :: rest =>
    match walkDep dist d acc with
    | .error e => .error e
    | .ok acc1 => walkDeps dist rest acc1

end

/-- Reachability along the walked edges: a dependency reachable from the
`moduledeps` roots through interior nodes that the `_preVisit` pruning does
not cut off. -/
inductive ReachableFrom (roots : List Dep) : Dep → Prop where
  | root {d : Dep} : d ∈ roots → ReachableFrom roots d
  | step {c d : Dep} : ReachableFrom roots c → prunedB c = false → d ∈ c.deps →
      ReachableFrom roots d

/-- The per-object memoization attribute `'.module_deps'` of
`get_module_deps`, keyed by the identity of the distribution (embedded by its
name). -/
abbrev Cache := List (String × List Dep)

/-- The portable snapshot produced by pickling a `JavaModuleDescriptor`
whose `modulepath` and `dist` have been rewritten to identifier strings. -/
structure PickledJMD where
  name : String
  exports : List (String × List String)
  requires : List (String × List String)
  concealedRequires : List (String × List String)
  uses : List String
  provides : List (String × List String)
  packages : List String
  conceals : List String
  jarpath : Option String
  dist : String
  modulepath : List String
  boot : Bool
  deriving DecidableEq, Repr

/-- The pickle files written by `save`, keyed by path. -/
abbrev FS := List (String × PickledJMD)

/-- The external collaborators of `mx_javamodules.py`: functions of the `mx`
module and of the `JDKConfig` object.  These are foreign interfaces; each
field embeds one call site.  `moduleOf` embeds
`as_java_module(dep, jdk, fatalIfNotCreated=False) or make_java_module(dep, jdk)`
(the recursive synthesis of a dependency's module, which in the Python code
goes through process-global caches); `resolveDistModule` embeds
`as_java_module(mx.distribution(name), jdk)`;
`distributionByName` embeds `mx.distribution`;
`classpathEntries` embeds `mx.classpath_entries(dist, includeSelf=False)`;
`archiveNames` and `archiveContent` embed `zipfile` reads of a
distribution's jar; `findPackages` embeds
`mx._find_packages(dep, onlyPublic=True)`; `modeEqual` embeds
`dist.suite.getMxCompatibility().moduleDepsEqualDistDeps()`. -/
structure MxEnv where
  modeEqual : Bool
  transitiveKeyword : String
  jdkModules : List JavaModuleDescriptor
  classpathEntries : Dep → List Dep
  archivedDeps : Dep → List Dep
  moduleOf : Dep → Option JavaModuleDescriptor
  providedByJdk : Dep → Bool
  findPackages : Dep → List String
  archiveNames : Dep → List String
  archiveContent : Dep → String → List String
  outputRoot : String
  resolveDistModule : String → Option JavaModuleDescriptor
  distributionByName : String → Option Dep

/-- `get_module_deps(dist)`: in the `moduleDepsEqualDistDeps` mode delegate
to `dist.archived_deps()`; otherwise return the memoized walk result if
present, else walk the `moduledeps` roots (which must all be JAR
distributions) and memoize. -/
def get_module_deps (env : MxEnv) (cache : Cache) (dist : Dep) :
    Except MxError (List Dep × Cache) :=
  if env.modeEqual then .ok (env.archivedDeps dist, cache)
  else
    match dictGet dist.name cache with
    | some l => .ok (l, cache)
    | none =>
      let roots := dist.moduledeps
      if roots.isEmpty then .ok (roots, cache)
      else
        match roots.find? (fun r => !r.isJARDistribution) with
        | some r =>
          .error ⟨"moduledeps can (currently) only include JAR distributions: " ++ r.name,
            some dist.name⟩
        | none =>
          match walkDeps dist roots [] with
          | .error e => .error e
          | .ok moduledeps => .ok (moduledeps, cache ++ [(dist.name, moduledeps)])

/-- The `(moduleName, moduleDir, moduleJar)` triple computed at the end of
`get_java_module_info`. -/
def mkInfoTriple (env : MxEnv) (moduleName : String) : String × String × String :=
  let modulesDir := env.outputRoot ++ "/modules"
  (moduleName, modulesDir ++ "/" ++ moduleName, modulesDir ++ "/" ++ moduleName ++ ".jar")

/-- `get_java_module_info(dist, fatalIfNotModule)`: in the
`moduleDepsEqualDistDeps` mode the module name is the `moduleName` attribute
(absent or empty means `dist` defines no module); otherwise `dist` defines a
module iff `get_module_deps(dist)` is non-empty, and the module name is the
distribution name with underscores replaced by dots, lower-cased. -/
def get_java_module_info (env : MxEnv) (cache : Cache) (dist : Dep)
    (fatalIfNotModule : Bool) :
    Except MxError (Option (String × String × String) × Cache) :=
  if env.modeEqual then
    match dist.info.moduleNameAttr with
    | none =>
      if fatalIfNotModule then
        .error ⟨"Distribution " ++ dist.name ++ " does not define a module", none⟩
      else .ok (none, cache)
    | some moduleName =>
      if moduleName = "" then
        if fatalIfNotModule then
          .error ⟨"Distribution " ++ dist.name ++ " does not define a module", none⟩
        else .ok (none, cache)
      else .ok (some (mkInfoTriple env moduleName), cache)
  else
    match get_module_deps env cache dist with
    | .error e => .error e
    | .ok (mdeps, cache1) =>
      if mdeps.isEmpty then
        if fatalIfNotModule then
          .error ⟨"Module for distribution " ++ dist.name ++ " would be empty", none⟩
        else .ok (none, cache1)
      else .ok (some (mkInfoTriple env (strToLower (strReplace1 '_' '.' dist.name))), cache1)

/-- `_expand_package_info(dep, packages)`: expand a `'<package-info>'` entry
to the packages of the project holding a `package-info.java` file. -/
def expand_package_info (env : MxEnv) (dep : Dep) (packages : List String) :
    List String :=
  if "<package-info>" ∈ packages then
    setUnion ((packages.filter (fun e => e ≠ "<package-info>")).dedup)
      (env.findPackages dep)
  else packages.dedup

/-! ## The descriptor synthesizer (`make_java_module`) -/

/-- The accumulators of `make_java_module`'s loop over the constituent Java
projects (`uses`, `requires`, `concealedRequires`, `usedModules`, `exports`).
`usedModules` is a set of descriptor objects in Python; it is embedded by
the module names. -/
structure SynthState where
  usesAcc : List String
  requiresAcc : List (String × List String)
  concealedAcc : List (String × List String)
  usedModules : List String
  exportsAcc : List (String × List String)

/-- One iteration of `make_java_module`'s `for dep in javaprojects` loop:
merge the project's `uses`, add `static` requires for its `runtimeDeps`,
resolve every imported package not defined by the module being created
through `lookup_package`, and register the project's exported packages. -/
def synthStep (env : MxEnv) (allmodules : List JavaModuleDescriptor)
    (packages : List String) (moduleName : String) (st : SynthState) (dep : Dep) :
    SynthState :=
  let uses1 := setUnion st.usesAcc dep.info.usesAttr
  let req1 := dep.info.runtimeDepsAttr.foldl
    (fun r pkg => dictSetdefault pkg ["static"] r) st.requiresAcc
  let imported := (dep.info.importedJavaPackages ++ dep.info.importsAttr).foldl
    (fun (acc : List (String × List String) × List (String × List String) × List String) pkg =>
      let (r, c, u) := acc
      if pkg ∈ packages then (r, c, u)
      else
        match lookup_package allmodules pkg moduleName with
        | none => (r, c, u)
        | some (depModule, visibility) =>
          if depModule.name = moduleName then (r, c, u)
          else
            let r1 := dictSetdefault depModule.name [] r
            match visibility with
            | .exported => (r1, c, setAdd u depModule.name)
            | .concealed =>
              (r1, dictAddTo depModule.name pkg c, setAdd u depModule.name))
    (req1, st.concealedAcc, st.usedModules)
  let (req2, conc2, used2) := imported
  let exp2 := (expand_package_info env dep
      (dep.info.exportsAttr.getD dep.info.definedJavaPackages)).foldl
    (fun e package => dictSetdefault package [] e) st.exportsAcc
  { usesAcc := uses1, requiresAcc := req2, concealedAcc := conc2,
    usedModules := used2, exportsAcc := exp2 }

/-- One iteration of `make_java_module`'s classpath loop in the
`moduleDepsEqualDistDeps` mode: a JAR distribution contributes its module to
`modulepath` and a `requires` entry carrying the transitive-requires
keyword; JDK/JRE libraries provided by the JDK are skipped; everything else
aborts.  `env.moduleOf dep = none` stands for the recursive synthesis
yielding no module, on which the Python code crashes dereferencing `None`. -/
def classpathStep (env : MxEnv) (dist : Dep)
    (acc : List JavaModuleDescriptor × List (String × List String)) (dep : Dep) :
    Except MxError (List JavaModuleDescriptor × List (String × List String)) :=
  if dep.isJARDistribution then
    match env.moduleOf dep with
    | some jmd =>
      .ok (acc.1 ++ [jmd], dictSet jmd.name [env.transitiveKeyword] acc.2)
    | none =>
      .error ⟨"AttributeError: no module created for " ++ dep.name, none⟩
  else if (dep.isJdkLibrary || dep.isJreLibrary) && env.providedByJdk dep then .ok acc
  else
    .error ⟨dist.name ++ " cannot depend on " ++ dep.name
      ++ " as it does not define a module", none⟩

/-- The scan of one constituent jar in `make_java_module`: every
`META-INF/services/<service>` entry contributes its lines to
`provides[service]`, and `service` joins `uses` when the service's own class
file is among the jar's entries.  The `assert '/' not in service` of the
source is embedded as an error. -/
def scanArchive (env : MxEnv) (d : Dep)
    (acc : List (String × List String) × List String) :
    Except MxError (List (String × List String) × List String) :=
  let names := env.archiveNames d
  names.foldlM (fun (acc : List (String × List String) × List String) arcname =>
    if strStartsWith arcname "META-INF/services/" ∧ arcname ≠ "META-INF/services/" then
      let service := arcname.drop "META-INF/services/".length
      if strContains service '/' then .error ⟨"AssertionError: " ++ service, none⟩
      else
        let pr := dictUnionAt service (env.archiveContent d arcname) acc.1
        let us :=
          if (strReplace1 '.' '/' service ++ ".class") ∈ names then setAdd acc.2 service
          else acc.2
        .ok (pr, us)
    else .ok acc) acc

/-- `make_java_module(dist, jdk)`: synthesize the module descriptor of a
distribution.  The staging, `module-info.java` write, `javac` invocation,
archiving and `save` call at the end of the Python function are process and
filesystem effects that leave the returned descriptor's fields unchanged
(see `mx_C10_save_restores_live_descriptor` for `save`); they are elided. -/
def make_java_module (env : MxEnv) (cache : Cache) (dist : Dep) :
    Except MxError (Option JavaModuleDescriptor × Cache) :=
  match get_java_module_info env cache dist false with
  | .error e => .error e
  | .ok (none, cache1) => .ok (none, cache1)
  | .ok (some (moduleName, _moduleDir, moduleJar), cache1) =>
    let branchRes :
        Except MxError
          (List Dep × List JavaModuleDescriptor × List (String × List String) × Cache) :=
      if env.modeEqual then
        match (env.classpathEntries dist).foldlM (classpathStep env dist) ([], []) with
        | .error e => .error e
        | .ok (modulepath, requires0) =>
          .ok (env.archivedDeps dist, modulepath, requires0, cache1)
      else
        match get_module_deps env cache1 dist with
        | .error e => .error e
        | .ok (moduledeps, cache2) => .ok (moduledeps, [], [], cache2)
    match branchRes with
    | .error e => .error e
    | .ok (moduledeps, modulepath, requires0, cache2) =>
      let allmodules := modulepath ++ env.jdkModules
      let javaprojects := moduledeps.filter Dep.isJavaProject
      let packages := javaprojects.foldl
        (fun acc d => setUnion acc d.info.definedJavaPackages) []
      let st := javaprojects.foldl (synthStep env allmodules packages moduleName)
        { usesAcc := [], requiresAcc := requires0, concealedAcc := [],
          usedModules := [], exportsAcc := [] }
      match ([dist] ++ moduledeps.filter Dep.isJARDistribution).foldlM
          (fun acc d => if d.isJARDistribution then scanArchive env d acc else .ok acc)
          ([], st.usesAcc) with
      | .error e => .error e
      | .ok (provides, uses2) =>
        match JavaModuleDescriptor.init moduleName st.exportsAcc st.requiresAcc uses2
            provides (some packages) (some st.concealedAcc) (some moduleJar) (some dist)
            modulepath false with
        | none => .error ⟨"AssertionError", none⟩
        | some jmd => .ok (some jmd, cache2)

/-! ## The persistence layer (`save` / `load`) -/

/-- The portable identifier a `modulepath` member is rewritten to by `save`:
`m.name if not m.dist else 'dist:' + m.dist.name`. -/
def portableRef (m : JavaModuleDescriptor) : String :=
  match m.dist with
  | none => m.name
  | some d => "dist:" ++ d.name

/-- The object state pickled by `save`: the descriptor with `modulepath`
rewritten to portable identifiers and `dist` to the distribution name. -/
def mkPickled (jmd : JavaModuleDescriptor) (distName : String) : PickledJMD :=
  { name := jmd.name
    exports := jmd.exports
    requires := jmd.requires
    concealedRequires := jmd.concealedRequires
    uses := jmd.uses
    provides := jmd.provides
    packages := jmd.packages
    conceals := jmd.conceals
    jarpath := jmd.jarpath
    dist := distName
    modulepath := jmd.modulepath.map portableRef
    boot := jmd.boot }

/-- The outcome of `JavaModuleDescriptor.save`: the live descriptor after
the call (the `finally` block restores `modulepath` and `dist`), the pickle
files, the memoization cache and the call's result (`save` returns `None` on
every successful path, embedded as `.ok ()`). -/
structure SaveResult where
  live : JavaModuleDescriptor
  fs : FS
  cache : Cache
  result : Except MxError Unit

/-- `JavaModuleDescriptor.save`: no-op for a descriptor with no originating
distribution; otherwise temporarily rewrite `modulepath` and `dist` to
portable form, pickle the object to `moduleDir + '.pickled'` (written via
`SafeFileCreation`, so a raising dump leaves no file), and restore both
fields in a `finally` block.  `dumpRaises` selects whether `pickle.dump`
raises.  A `None` result of `get_java_module_info` cannot occur under
`fatalIfNotModule=True`; Python would crash unpacking it, embedded as an
error. -/
def JavaModuleDescriptor.save (env : MxEnv) (cache : Cache) (fs : FS)
    (jmd : JavaModuleDescriptor) (dumpRaises : Bool) : SaveResult :=
  match jmd.dist with
  | none => ⟨jmd, fs, cache, .ok ()⟩
  | some dist =>
    match get_java_module_info env cache dist true with
    | .error e => ⟨jmd, fs, cache, .error e⟩
    | .ok (none, cache1) =>
      ⟨jmd, fs, cache1, .error ⟨"TypeError: cannot unpack None", none⟩⟩
    | .ok (some (_, moduleDir, _), cache1) =>
      let path := moduleDir ++ ".pickled"
      let savedModulepath := jmd.modulepath
      let savedDist := jmd.dist
      let pickled := mkPickled jmd dist.name
      if dumpRaises then
        ⟨JavaModuleDescriptor.mk { jmd.fields with dist := savedDist } savedModulepath,
          fs, cache1, .error ⟨"PickleError", none⟩⟩
      else
        ⟨JavaModuleDescriptor.mk { jmd.fields with dist := savedDist } savedModulepath,
          dictSet path pickled fs, cache1, .ok ()⟩

/-- `{m.name: m for m in jdk.get_modules()}` followed by a key lookup:
later modules with the same name overwrite earlier ones. -/
def jdkModuleByName (mods : List JavaModuleDescriptor) (nm : String) :
    Option JavaModuleDescriptor :=
  (mods.filter (fun m => m.name == nm)).getLast?

/-- The resolution loop of `load` over the pickled `modulepath` names;
`none` stands for a failing resolution (a fatal `as_java_module` or a
`KeyError` on the JDK-module dict). -/
def resolveAll (f : String → Option JavaModuleDescriptor) :
    List String → Option (List JavaModuleDescriptor)
  | [] => some []
  | n :: rest =>
    match f n with
    | none => none
    | some m => (resolveAll f rest).map (fun ms => m :: ms)

/-- The resolution of one pickled `modulepath` name in `load`: a
`'dist:'`-tagged name resolves through
`as_java_module(mx.distribution(distName), jdk)`, any other name through the
JDK-module dict. -/
def resolveEntry (env : MxEnv) (nm : String) : Option JavaModuleDescriptor :=
  if strStartsWith nm "dist:" then env.resolveDistModule (nm.drop "dist:".length)
  else jdkModuleByName env.jdkModules nm

/-- `JavaModuleDescriptor.load(dist, jdk, fatalIfNotCreated)`: locate the
pickle for `dist`, unpickle it, resolve each `modulepath` name (`'dist:'`
tagged names via `as_java_module(mx.distribution(...), jdk)`, bare names via
the JDK-module dict) and rebind `dist` to the live distribution object. -/
def JavaModuleDescriptor.load (env : MxEnv) (cache : Cache) (fs : FS) (dist : Dep)
    (fatalIfNotCreated : Bool) :
    Except MxError (Option JavaModuleDescriptor × Cache) :=
  match get_java_module_info env cache dist true with
  | .error e => .error e
  | .ok (none, _) => .error ⟨"TypeError: cannot unpack None", none⟩
  | .ok (some (_, moduleDir, _), cache1) =>
    let path := moduleDir ++ ".pickled"
    match dictGet path fs with
    | none =>
      if fatalIfNotCreated then .error ⟨path ++ " does not exist", none⟩
      else .ok (none, cache1)
    | some pickled =>
      match resolveAll (resolveEntry env) pickled.modulepath with
      | none => .error ⟨"unresolved modulepath reference", none⟩
      | some resolved =>
        match env.distributionByName pickled.dist with
        | none => .error ⟨"unknown distribution: " ++ pickled.dist, none⟩
        | some liveDist =>
          .ok (some (JavaModuleDescriptor.mk
            { name := pickled.name
              exports := pickled.exports
              requires := pickled.requires
              concealedRequires := pickled.concealedRequires
              uses := pickled.uses
              provides := pickled.provides
              packages := pickled.packages
              conceals := pickled.conceals
              jarpath := pickled.jarpath
              dist := some liveDist
              boot := pickled.boot } resolved), cache1)

/-! ## Concrete objects used by the witnesses -/

/-- A trivial environment for concrete evaluations. -/
def envTrivial : MxEnv :=
  { modeEqual := true
    transitiveKeyword := "transitive"
    jdkModules := []
    classpathEntries := fun _ => []
    archivedDeps := fun _ => []
    moduleOf := fun _ => none
    providedByJdk := fun _ => false
    findPackages := fun _ => []
    archiveNames := fun _ => []
    archiveContent := fun _ _ => []
    outputRoot := "out"
    resolveDistModule := fun _ => none
    distributionByName := fun _ => none }

/-- `envTrivial` in the explicit-moduledeps mode. -/
def envNoEq : MxEnv := { envTrivial with modeEqual := false }

/-- A concrete JAR distribution with no dependencies. -/
def dep0 : Dep :=
  .mk { name := "d", kind := .jarDistribution, definedJavaPackages := []
        importedJavaPackages := [], importsAttr := [], usesAttr := []
        runtimeDepsAttr := [], exportsAttr := none, moduleNameAttr := none } [] []

/-- The descriptor constructed by `init "m" [("a", [])] [] [] [] none ...`. -/
def c3jmd : JavaModuleDescriptor :=
  JavaModuleDescriptor.mk
    { name := "m", exports := [("a", [])], requires := [], concealedRequires := []
      uses := [], provides := [], packages := ["a"], conceals := []
      jarpath := none, dist := none, boot := false } []

/-- A descriptor exporting package `p` unqualified. -/
def c4A : JavaModuleDescriptor :=
  JavaModuleDescriptor.mk
    { name := "A", exports := [("p", [])], requires := [], concealedRequires := []
      uses := [], provides := [], packages := ["p"], conceals := []
      jarpath := none, dist := none, boot := false } []

/-- A second descriptor exporting package `p` unqualified. -/
def c4B : JavaModuleDescriptor :=
  JavaModuleDescriptor.mk
    { name := "B", exports := [("p", [])], requires := [], concealedRequires := []
      uses := [], provides := [], packages := ["p"], conceals := []
      jarpath := none, dist := none, boot := false } []

/-- A descriptor with a qualified export, an unqualified export and a
concealed package. -/
def c5d : JavaModuleDescriptor :=
  JavaModuleDescriptor.mk
    { name := "D", exports := [("p", ["M1"]), ("q", [])], requires := []
      concealedRequires := [], uses := [], provides := []
      packages := ["p", "q", "r"], conceals := ["r"]
      jarpath := none, dist := none, boot := false } []

/-- A concrete distribution defining module `my.dist`. -/
def c1dist : Dep :=
  .mk { name := "MY_DIST", kind := .jarDistribution, definedJavaPackages := []
        importedJavaPackages := [], importsAttr := [], usesAttr := []
        runtimeDepsAttr := [], exportsAttr := none
        moduleNameAttr := some "my.dist" } [] []

/-- A concrete distribution backing the `lib.mod` module. -/
def c1libDist : Dep :=
  .mk { name := "LIB", kind := .jarDistribution, definedJavaPackages := []
        importedJavaPackages := [], importsAttr := [], usesAttr := []
        runtimeDepsAttr := [], exportsAttr := none, moduleNameAttr := some "lib.mod" } [] []

/-- A concrete JDK module. -/
def c1jdkMod : JavaModuleDescriptor :=
  JavaModuleDescriptor.mk
    { name := "java.base", exports := [], requires := [], concealedRequires := []
      uses := [], provides := [], packages := [], conceals := []
      jarpath := none, dist := none, boot := true } []

/-- A concrete distribution-derived module on the module path. -/
def c1libMod : JavaModuleDescriptor :=
  JavaModuleDescriptor.mk
    { name := "lib.mod", exports := [("com.lib", [])], requires := []
      concealedRequires := [], uses := [], provides := [], packages := ["com.lib"]
      conceals := [], jarpath := some "out/modules/lib.mod.jar"
      dist := some c1libDist, boot := false } []

/-- A concrete distribution-derived descriptor to round-trip. -/
def c1jmd : JavaModuleDescriptor :=
  JavaModuleDescriptor.mk
    { name := "my.dist", exports := [("com.x", [])]
      requires := [("lib.mod", ["transitive"])], concealedRequires := []
      uses := ["svc.S"], provides := [("svc.S", ["impl.I"])]
      packages := ["com.x", "com.y"], conceals := ["com.y"]
      jarpath := some "out/modules/my.dist.jar", dist := some c1dist
      boot := false } [c1libMod, c1jdkMod]

/-- The environment resolving the portable references of `c1jmd`. -/
def c1env : MxEnv :=
  { envTrivial with
    jdkModules := [c1jdkMod]
    resolveDistModule := fun nm => if nm = "LIB" then some c1libMod else none
    distributionByName := fun nm => if nm = "MY_DIST" then some c1dist else none }

/-- The Java project constituting the `app` distribution: defines `com.app`
and imports `com.lib`. -/
def c7appPrj : Dep :=
  .mk { name := "app.prj", kind := .javaProject
        definedJavaPackages := ["com.app"], importedJavaPackages := ["com.lib"]
        importsAttr := [], usesAttr := [], runtimeDepsAttr := []
        exportsAttr := none, moduleNameAttr := none } [] []

/-- The `lib` archive dependency. -/
def c7lib : Dep :=
  .mk { name := "LIB", kind := .jarDistribution, definedJavaPackages := []
        importedJavaPackages := [], importsAttr := [], usesAttr := []
        runtimeDepsAttr := [], exportsAttr := none
        moduleNameAttr := some "lib.module" } [] []

/-- The module synthesized for `lib`: defines and exports `com.lib`
unqualified. -/
def c7libMod : JavaModuleDescriptor :=
  JavaModuleDescriptor.mk
    { name := "lib.module", exports := [("com.lib", [])], requires := []
      concealedRequires := [], uses := [], provides := [], packages := ["com.lib"]
      conceals := [], jarpath := some "out/modules/lib.module.jar"
      dist := some c7lib, boot := false } []

/-- The `app` distribution depending on `lib`. -/
def c7app : Dep :=
  .mk { name := "APP", kind := .jarDistribution, definedJavaPackages := []
        importedJavaPackages := [], importsAttr := [], usesAttr := []
        runtimeDepsAttr := [], exportsAttr := none
        moduleNameAttr := some "app.module" } [] []

/-- The environment of the `app`/`lib` scenario (moduleDepsEqualDistDeps
mode). -/
def c7env : MxEnv :=
  { envTrivial with
    classpathEntries := fun d => if d.name = "APP" then [c7lib] else []
    archivedDeps := fun d => if d.name = "APP" then [c7appPrj] else []
    moduleOf := fun d => if d.name = "LIB" then some c7libMod else none }

/-- The modifier set recorded for `lib.module` in the `requires` of the
module synthesized for `c7app`. -/
def c7requiresOfLib : Option (List String) :=
  match make_java_module c7env [] c7app with
  | .ok (some jmd, _) => dictGet "lib.module" jmd.requires
  | _ => none

/-- A dependency of a kind that is neither a JAR distribution nor a Java
project. -/
def c8bad : Dep :=
  .mk { name := "badlib", kind := .other, definedJavaPackages := []
        importedJavaPackages := [], importsAttr := [], usesAttr := []
        runtimeDepsAttr := [], exportsAttr := none, moduleNameAttr := none } [] []

/-- A JAR-distribution root depending on `c8bad`. -/
def c8root : Dep :=
  .mk { name := "root", kind := .jarDistribution, definedJavaPackages := []
        importedJavaPackages := [], importsAttr := [], usesAttr := []
        runtimeDepsAttr := [], exportsAttr := none, moduleNameAttr := none } [c8bad] []

/-- A distribution whose `moduledeps` reach `c8bad` through `c8root`. -/
def c8dist : Dep :=
  .mk { name := "D", kind := .jarDistribution, definedJavaPackages := []
        importedJavaPackages := [], importsAttr := [], usesAttr := []
        runtimeDepsAttr := [], exportsAttr := none, moduleNameAttr := none } [] [c8root]

/-- A descriptor whose single `provides` entry lists its providers in one
iteration order. -/
def c6A : JavaModuleDescriptor :=
  JavaModuleDescriptor.mk
    { name := "m", exports := [], requires := [], concealedRequires := []
      uses := [], provides := [("svc.S", ["b.B", "a.A"])], packages := []
      conceals := [], jarpath := none, dist := none, boot := false } []

/-- The same descriptor contents with the provider set iterated in the
other order. -/
def c6B : JavaModuleDescriptor :=
  JavaModuleDescriptor.mk
    { name := "m", exports := [], requires := [], concealedRequires := []
      uses := [], provides := [("svc.S", ["a.A", "b.B"])], packages := []
      conceals := [], jarpath := none, dist := none, boot := false } []

/-- A descriptor with requires, exports, uses, provides, conceals and
concealed-requires entries in one iteration order. -/
def c6WA : JavaModuleDescriptor :=
  JavaModuleDescriptor.mk
    { name := "m", exports := [("p.b", ["M2", "M1"]), ("p.a", [])]
      requires := [("r.b", ["transitive"]), ("r.a", ["static", "transitive"])]
      concealedRequires := [("c.m", ["k.b", "k.a"])]
      uses := ["u.b", "u.a"], provides := [("s.b", ["i.1"]), ("s.a", ["i.2", "i.3"])]
      packages := ["p.b", "p.a", "q.z"], conceals := ["q.z"]
      jarpath := some "out/m.jar", dist := none, boot := false } []

/-- The same descriptor contents with every map and set iterated in another
order (providers of each service kept in their given order). -/
def c6WB : JavaModuleDescriptor :=
  JavaModuleDescriptor.mk
    { name := "m", exports := [("p.a", []), ("p.b", ["M1", "M2"])]
      requires := [("r.a", ["transitive", "static"]), ("r.b", ["transitive"])]
      concealedRequires := [("c.m", ["k.a", "k.b"])]
      uses := ["u.a", "u.b"], provides := [("s.a", ["i.2", "i.3"]), ("s.b", ["i.1"])]
      packages := ["p.b", "p.a", "q.z"], conceals := ["q.z"]
      jarpath := some "out/m.jar", dist := none, boot := false } []

/-- A platform-module descriptor (no originating distribution). -/
def c10jmd : JavaModuleDescriptor :=
  JavaModuleDescriptor.mk
    { name := "java.base", exports := [], requires := [], concealedRequires := []
      uses := [], provides := [], packages := [], conceals := []
      jarpath := none, dist := none, boot := true } []

/-! ## Basic lemmas about the embedding -/

@[simp] theorem JavaModuleDescriptor.fields_mk (f : JMDFields)
    (mp : List JavaModuleDescriptor) : (JavaModuleDescriptor.mk f mp).fields = f := rfl

@[simp] theorem JavaModuleDescriptor.modulepath_mk (f : JMDFields)
    (mp : List JavaModuleDescriptor) : (JavaModuleDescriptor.mk f mp).modulepath = mp := rfl

@[simp] theorem JavaModuleDescriptor.name_mk (f : JMDFields)
    (mp : List JavaModuleDescriptor) : (JavaModuleDescriptor.mk f mp).name = f.name := rfl

@[simp] theorem JavaModuleDescriptor.exports_mk (f : JMDFields)
    (mp : List JavaModuleDescriptor) : (JavaModuleDescriptor.mk f mp).exports = f.exports := rfl

@[simp] theorem JavaModuleDescriptor.requires_mk (f : JMDFields)
    (mp : List JavaModuleDescriptor) :
    (JavaModuleDescriptor.mk f mp).requires = f.requires := rfl

@[simp] theorem JavaModuleDescriptor.concealedRequires_mk (f : JMDFields)
    (mp : List JavaModuleDescriptor) :
    (JavaModuleDescriptor.mk f mp).concealedRequires = f.concealedRequires := rfl

@[simp] theorem JavaModuleDescriptor.uses_mk (f : JMDFields)
    (mp : List JavaModuleDescriptor) : (JavaModuleDescriptor.mk f mp).uses = f.uses := rfl

@[simp] theorem JavaModuleDescriptor.provides_mk (f : JMDFields)
    (mp : List JavaModuleDescriptor) :
    (JavaModuleDescriptor.mk f mp).provides = f.provides := rfl

@[simp] theorem JavaModuleDescriptor.packages_mk (f : JMDFields)
    (mp : List JavaModuleDescriptor) :
    (JavaModuleDescriptor.mk f mp).packages = f.packages := rfl

@[simp] theorem JavaModuleDescriptor.conceals_mk (f : JMDFields)
    (mp : List JavaModuleDescriptor) :
    (JavaModuleDescriptor.mk f mp).conceals = f.conceals := rfl

@[simp] theorem JavaModuleDescriptor.jarpath_mk (f : JMDFields)
    (mp : List JavaModuleDescriptor) :
    (JavaModuleDescriptor.mk f mp).jarpath = f.jarpath := rfl

@[simp] theorem JavaModuleDescriptor.dist_mk (f : JMDFields)
    (mp : List JavaModuleDescriptor) : (JavaModuleDescriptor.mk f mp).dist = f.dist := rfl

@[simp] theorem JavaModuleDescriptor.boot_mk (f : JMDFields)
    (mp : List JavaModuleDescriptor) : (JavaModuleDescriptor.mk f mp).boot = f.boot := rfl

theorem JavaModuleDescriptor.mk_fields_modulepath (j : JavaModuleDescriptor) :
    JavaModuleDescriptor.mk j.fields j.modulepath = j := by
  cases j with
  | mk f mp => rfl

@[simp] theorem dictGet_nil {β : Type} (k : String) :
    dictGet k ([] : List (String × β)) = none := rfl

theorem dictGet_cons {β : Type} (k : String) (a : String × β) (l : List (String × β)) :
    dictGet k (a :: l) = if a.1 = k then some a.2 else dictGet k l := by
  by_cases h : a.1 = k <;> simp [dictGet, List.find?_cons, h]

theorem dictGet_append_of_none {β : Type} (k : String) (l : List (String × β)) (v : β)
    (h : dictGet k l = none) : dictGet k (l ++ [(k, v)]) = some v := by
  induction l with
  | nil => simp [dictGet_cons]
  | cons a rest ih =>
    rw [dictGet_cons] at h
    rw [List.cons_append, dictGet_cons]
    by_cases hak : a.1 = k
    · rw [if_pos hak] at h
      exact absurd h (by simp)
    · rw [if_neg hak] at h
      rw [if_neg hak]
      exact ih h

theorem dictGet_eq_none_iff {β : Type} (k : String) (l : List (String × β)) :
    dictGet k l = none ↔ k ∉ l.map Prod.fst := by
  induction l with
  | nil => simp
  | cons a rest ih =>
    rw [dictGet_cons]
    by_cases h : a.1 = k
    · subst h
      simp
    · rw [if_neg h, ih]
      have h' : ¬ (k = a.1) := fun hk => h hk.symm
      simp [h']

theorem dictGet_isSome_of_mem {β : Type} (k : String) (l : List (String × β))
    (h : k ∈ l.map Prod.fst) : ∃ v, dictGet k l = some v := by
  rcases ho : dictGet k l with _ | v
  · exact absurd h ((dictGet_eq_none_iff k l).mp ho)
  · exact ⟨v, rfl⟩

theorem charListLe_cons_iff (a b : Char) (as bs : List Char) :
    charListLe (a :: as) (b :: bs) = true ↔
      a < b ∨ (a = b ∧ charListLe as bs = true) := by
  by_cases h1 : a < b
  · simp [charListLe, h1]
  · by_cases h2 : b < a
    · have hne : a ≠ b := ne_of_gt h2
      simp [charListLe, h1, h2, hne]
    · have heq : a = b := le_antisymm (not_lt.mp h2) (not_lt.mp h1)
      subst heq
      simp [charListLe, h1]

theorem charListLe_total (as bs : List Char) :
    charListLe as bs = true ∨ charListLe bs as = true := by
  induction as generalizing bs with
  | nil => exact .inl rfl
  | cons a as ih =>
    cases bs with
    | nil => exact .inr rfl
    | cons b bs =>
      rcases lt_trichotomy a b with h | h | h
      · exact .inl ((charListLe_cons_iff a b as bs).mpr (.inl h))
      · subst h
        rcases ih bs with h1 | h1
        · exact .inl ((charListLe_cons_iff a a as bs).mpr (.inr ⟨rfl, h1⟩))
        · exact .inr ((charListLe_cons_iff a a bs as).mpr (.inr ⟨rfl, h1⟩))
      · exact .inr ((charListLe_cons_iff b a bs as).mpr (.inl h))

theorem charListLe_trans (as bs cs : List Char)
    (h1 : charListLe as bs = true) (h2 : charListLe bs cs = true) :
    charListLe as cs = true := by
  induction as generalizing bs cs with
  | nil => rfl
  | cons a as ih =>
    cases bs with
    | nil => simp [charListLe] at h1
    | cons b bs =>
      cases cs with
      | nil => simp [charListLe] at h2
      | cons c cs =>
        rcases (charListLe_cons_iff a b as bs).mp h1 with hab | ⟨rfl, hab⟩
        · rcases (charListLe_cons_iff b c bs cs).mp h2 with hbc | ⟨rfl, hbc⟩
          · exact (charListLe_cons_iff a c as cs).mpr (.inl (lt_trans hab hbc))
          · exact (charListLe_cons_iff a b as cs).mpr (.inl hab)
        · rcases (charListLe_cons_iff a c bs cs).mp h2 with hbc | ⟨rfl, hbc⟩
          · exact (charListLe_cons_iff a c as cs).mpr (.inl hbc)
          · exact (charListLe_cons_iff a a as cs).mpr (.inr ⟨rfl, ih bs cs hab hbc⟩)

theorem charListLe_antisymm (as bs : List Char)
    (h1 : charListLe as bs = true) (h2 : charListLe bs as = true) : as = bs := by
  induction as generalizing bs with
  | nil =>
    cases bs with
    | nil => rfl
    | cons b bs => simp [charListLe] at h2
  | cons a as ih =>
    cases bs with
    | nil => simp [charListLe] at h1
    | cons b bs =>
      rcases (charListLe_cons_iff a b as bs).mp h1 with hab | ⟨rfl, hab⟩
      · rcases (charListLe_cons_iff b a bs as).mp h2 with hba | ⟨rfl, hba⟩
        · exact absurd hba (lt_asymm hab)
        · exact absurd hab (lt_irrefl _)
      · rcases (charListLe_cons_iff a a bs as).mp h2 with hba | ⟨heq, hba⟩
        · exact absurd hba (lt_irrefl _)
        · rw [ih bs hab hba]

instance : IsTotal String strLe :=
  ⟨fun a b => charListLe_total a.data b.data⟩

instance : IsTrans String strLe :=
  ⟨fun a b c => charListLe_trans a.data b.data c.data⟩

instance : IsAntisymm String strLe :=
  ⟨fun a b h1 h2 => by
    have h := charListLe_antisymm a.data b.data h1 h2
    cases a
    cases b
    exact congrArg String.mk h⟩

instance : IsTotal (String × List String) keyLe :=
  ⟨fun a b => charListLe_total a.1.data b.1.data⟩

instance : IsTrans (String × List String) keyLe :=
  ⟨fun a b c => charListLe_trans a.1.data b.1.data c.1.data⟩

theorem sortStrs_perm (l : List String) : List.Perm (sortStrs l) l :=
  List.perm_insertionSort strLe l

theorem sortStrs_sorted (l : List String) : List.Sorted strLe (sortStrs l) :=
  List.sorted_insertionSort strLe l

theorem sortStrs_eq_of_perm {l1 l2 : List String} (h : List.Perm l1 l2) :
    sortStrs l1 = sortStrs l2 :=
  List.eq_of_perm_of_sorted
    ((sortStrs_perm l1).trans (h.trans (sortStrs_perm l2).symm))
    (sortStrs_sorted l1) (sortStrs_sorted l2)

theorem sortPairs_perm (l : List (String × List String)) : List.Perm (sortPairs l) l :=
  List.perm_insertionSort keyLe l

theorem sortPairs_sorted (l : List (String × List String)) :
    List.Sorted keyLe (sortPairs l) :=
  List.sorted_insertionSort keyLe l

theorem nodupKeys_pairwise {β : Type} (l : List (String × β))
    (h : (l.map Prod.fst).Nodup) : l.Pairwise (fun a b => a.1 ≠ b.1) :=
  (List.pairwise_map.mp h)

theorem sortPairs_eq_of_perm {l1 l2 : List (String × List String)}
    (h : List.Perm l1 l2) (hnd : (l1.map Prod.fst).Nodup) :
    sortPairs l1 = sortPairs l2 := by
  have hnd1 : ((sortPairs l1).map Prod.fst).Nodup :=
    (((sortPairs_perm l1).map Prod.fst).nodup_iff).mpr hnd
  have hnd2' : (l2.map Prod.fst).Nodup := ((h.map Prod.fst).nodup_iff).mp hnd
  have hnd2 : ((sortPairs l2).map Prod.fst).Nodup :=
    (((sortPairs_perm l2).map Prod.fst).nodup_iff).mpr hnd2'
  have hperm : List.Perm (sortPairs l1) (sortPairs l2) :=
    (sortPairs_perm l1).trans (h.trans (sortPairs_perm l2).symm)
  haveI : IsAntisymm (String × List String)
      (fun a b => keyLe a b ∧ a.1 ≠ b.1) :=
    ⟨fun a b h1 h2 => absurd (antisymm (r := strLe) h1.1 h2.1) h1.2⟩
  exact List.eq_of_perm_of_sorted (r := fun a b => keyLe a b ∧ a.1 ≠ b.1) hperm
    ((sortPairs_sorted l1).and (nodupKeys_pairwise _ hnd1))
    ((sortPairs_sorted l2).and (nodupKeys_pairwise _ hnd2))

theorem orderedInsert_canon (a : String × List String)
    (L : List (String × List String)) :
    List.orderedInsert keyLe (a.1, sortStrs a.2) (canonVals L) =
      canonVals (List.orderedInsert keyLe a L) := by
  induction L with
  | nil => rfl
  | cons b L ih =>
    by_cases h : keyLe a b
    · have h' : keyLe (a.1, sortStrs a.2) (b.1, sortStrs b.2) := h
      simp only [canonVals, List.map_cons, List.orderedInsert, if_pos h, if_pos h']
    · have h' : ¬ keyLe (a.1, sortStrs a.2) (b.1, sortStrs b.2) := h
      simp only [canonVals, List.map_cons, List.orderedInsert, if_neg h, if_neg h']
      simp only [canonVals] at ih
      rw [ih]

theorem sortPairs_canonVals (l : List (String × List String)) :
    sortPairs (canonVals l) = canonVals (sortPairs l) := by
  induction l with
  | nil => rfl
  | cons a l ih =>
    show List.insertionSort keyLe (canonVals (a :: l)) =
      canonVals (List.insertionSort keyLe (a :: l))
    simp only [canonVals, List.map_cons, List.insertionSort]
    have ih' : List.insertionSort keyLe (List.map (fun p => (p.1, sortStrs p.2)) l) =
        List.map (fun p => (p.1, sortStrs p.2)) (List.insertionSort keyLe l) := by
      simpa [canonVals, sortPairs] using ih
    rw [ih']
    have hoi := orderedInsert_canon a (List.insertionSort keyLe l)
    simpa [canonVals] using hoi

theorem mapSortPairs_congr {γ : Type} (l1 l2 : List (String × List String))
    (F : String → List String → γ)
    (hperm : List.Perm (canonVals l1) (canonVals l2))
    (hnd : (l1.map Prod.fst).Nodup) :
    (sortPairs l1).map (fun p => F p.1 (sortStrs p.2)) =
    (sortPairs l2).map (fun p => F p.1 (sortStrs p.2)) := by
  have hnd1 : ((canonVals l1).map Prod.fst).Nodup := by
    have : (canonVals l1).map Prod.fst = l1.map Prod.fst := by
      simp [canonVals, List.map_map, Function.comp]
    rw [this]
    exact hnd
  have h1 : sortPairs (canonVals l1) = sortPairs (canonVals l2) :=
    sortPairs_eq_of_perm hperm hnd1
  calc (sortPairs l1).map (fun p => F p.1 (sortStrs p.2))
      = (canonVals (sortPairs l1)).map (fun p => F p.1 p.2) := by
        simp [canonVals, List.map_map, Function.comp]
    _ = (sortPairs (canonVals l1)).map (fun p => F p.1 p.2) := by
        rw [sortPairs_canonVals]
    _ = (sortPairs (canonVals l2)).map (fun p => F p.1 p.2) := by rw [h1]
    _ = (canonVals (sortPairs l2)).map (fun p => F p.1 p.2) := by
        rw [sortPairs_canonVals]
    _ = (sortPairs l2).map (fun p => F p.1 (sortStrs p.2)) := by
        simp [canonVals, List.map_map, Function.comp]

theorem dictGet_map_overwrite {β : Type} (k : String) (v : β) (l : List (String × β))
    (h : k ∈ l.map Prod.fst) :
    dictGet k (l.map (fun p => if p.1 == k then (p.1, v) else p)) = some v := by
  induction l with
  | nil => simp at h
  | cons a rest ih =>
    rw [List.map_cons, dictGet_cons]
    by_cases hak : a.1 = k
    · simp [hak]
    · have hbeq : (a.1 == k) = false := beq_eq_false_iff_ne.mpr hak
      rw [List.map_cons] at h
      have h' : k ∈ rest.map Prod.fst := by
        rcases List.mem_cons.mp h with h1 | h1
        · exact absurd h1.symm hak
        · exact h1
      simp only [hbeq, Bool.false_eq_true, if_false, if_neg hak]
      exact ih h'

theorem dictGet_dictSet_self {β : Type} (k : String) (v : β) (l : List (String × β)) :
    dictGet k (dictSet k v l) = some v := by
  unfold dictSet
  by_cases h : l.any (fun p => p.1 == k)
  · rw [if_pos h]
    obtain ⟨x, hx, hxk⟩ := List.any_eq_true.mp h
    exact dictGet_map_overwrite k v l (List.mem_map.mpr ⟨x, hx, eq_of_beq hxk⟩)
  · rw [if_neg h]
    apply dictGet_append_of_none
    rw [dictGet_eq_none_iff]
    intro hk
    obtain ⟨x, hx, hxk⟩ := List.mem_map.mp hk
    exact h (List.any_eq_true.mpr ⟨x, hx, by simp [hxk]⟩)

/-- A cached entry short-circuits `get_module_deps` (the `hasattr` fast
path). -/
theorem get_module_deps_cache_hit (env : MxEnv) (cache : Cache) (dist : Dep)
    (hmode : env.modeEqual = false) (l : List Dep)
    (hl : dictGet dist.name cache = some l) :
    get_module_deps env cache dist = .ok (l, cache) := by
  simp [get_module_deps, hmode, hl]

/-- A second `get_module_deps` call after a successful first call returns
the first call's result and leaves the cache unchanged. -/
theorem get_module_deps_idem (env : MxEnv) (cache : Cache) (dist : Dep)
    (hmode : env.modeEqual = false) (r : List Dep) (c1 : Cache)
    (h : get_module_deps env cache dist = .ok (r, c1)) :
    get_module_deps env c1 dist = .ok (r, c1) := by
  rcases hc : dictGet dist.name cache with _ | l
  · by_cases hroots : dist.moduledeps.isEmpty
    · have h1 : get_module_deps env cache dist = .ok (dist.moduledeps, cache) := by
        simp [get_module_deps, hmode, hc, hroots]
      rw [h1] at h
      obtain ⟨rfl, rfl⟩ : dist.moduledeps = r ∧ cache = c1 := by simpa using h
      exact h1
    · rcases hf : dist.moduledeps.find? (fun x => !x.isJARDistribution) with _ | bad
      · rcases hw : walkDeps dist dist.moduledeps [] with e | md
        · have h1 : get_module_deps env cache dist = .error e := by
            simp [get_module_deps, hmode, hc, hroots, hf, hw]
          rw [h1] at h
          exact absurd h (by simp)
        · have h1 : get_module_deps env cache dist =
              .ok (md, cache ++ [(dist.name, md)]) := by
            simp [get_module_deps, hmode, hc, hroots, hf, hw]
          rw [h1] at h
          obtain ⟨rfl, rfl⟩ :
              md = r ∧ cache ++ [(dist.name, md)] = c1 := by simpa using h
          have hget := dictGet_append_of_none dist.name cache md hc
          simp [get_module_deps, hmode, hget]
      · have h1 : get_module_deps env cache dist =
            .error ⟨"moduledeps can (currently) only include JAR distributions: "
              ++ bad.name, some dist.name⟩ := by
          simp [get_module_deps, hmode, hc, hroots, hf]
        rw [h1] at h
        exact absurd h (by simp)
  · have h1 : get_module_deps env cache dist = .ok (l, cache) := by
      simp [get_module_deps, hmode, hc]
    rw [h1] at h
    obtain ⟨rfl, rfl⟩ : l = r ∧ cache = c1 := by simpa using h
    simp [get_module_deps, hmode, hc]

theorem get_java_module_info_idem (env : MxEnv) (cache : Cache) (dist : Dep)
    (fatal : Bool) (t : String × String × String) (cache1 : Cache)
    (h : get_java_module_info env cache dist fatal = .ok (some t, cache1)) :
    get_java_module_info env cache1 dist true = .ok (some t, cache1) := by
  by_cases hm : env.modeEqual
  · unfold get_java_module_info at h ⊢
    rw [if_pos hm] at h ⊢
    rcases hna : dist.info.moduleNameAttr with _ | mn
    · cases fatal <;> simp [hna] at h
    · by_cases hmn : mn = ""
      · cases fatal <;> simp [hna, hmn] at h
      · obtain ⟨rfl, rfl⟩ : mkInfoTriple env mn = t ∧ cache = cache1 := by
          simpa [hna, hmn] using h
        simp [hmn]
  · have hm' : env.modeEqual = false := by simpa using hm
    unfold get_java_module_info at h ⊢
    rw [hm'] at h ⊢
    simp only [Bool.false_eq_true, if_false] at h ⊢
    rcases hg : get_module_deps env cache dist with e | ⟨mdeps, c⟩
    · simp [hg] at h
    · by_cases hne : mdeps.isEmpty
      · cases fatal <;> simp [hg, hne] at h
      · obtain ⟨rfl, rfl⟩ :
            (mkInfoTriple env (strToLower (strReplace1 '_' '.' dist.name)) = t ∧ c = cache1) := by
          simpa [hg, hne] using h
        have hidem := get_module_deps_idem env cache dist hm' mdeps c hg
        rw [hidem]
        simp [hne]

theorem save_spec (env : MxEnv) (cache : Cache) (fs : FS)
    (jmd : JavaModuleDescriptor) (d : Dep) (mn mdir mjar : String) (cache1 : Cache)
    (hdist : jmd.dist = some d)
    (hinfo : get_java_module_info env cache d true = .ok (some (mn, mdir, mjar), cache1)) :
    JavaModuleDescriptor.save env cache fs jmd false =
      ⟨jmd, dictSet (mdir ++ ".pickled") (mkPickled jmd d.name) fs, cache1, .ok ()⟩ := by
  have hrestore :
      JavaModuleDescriptor.mk { jmd.fields with dist := some d } jmd.modulepath = jmd := by
    rw [← hdist]
    rcases jmd with ⟨f, mp⟩
    rfl
  unfold JavaModuleDescriptor.save
  rw [hdist]
  simp [hinfo, hrestore]

theorem resolveAll_of_pointwise (f : String → Option JavaModuleDescriptor)
    (ms : List JavaModuleDescriptor)
    (h : ∀ m ∈ ms, ∃ m', f (portableRef m) = some m' ∧ m'.name = m.name) :
    ∃ rs, resolveAll f (ms.map portableRef) = some rs ∧
      rs.map JavaModuleDescriptor.name = ms.map JavaModuleDescriptor.name := by
  induction ms with
  | nil => exact ⟨[], rfl, rfl⟩
  | cons m rest ih =>
    obtain ⟨m', hm', hname⟩ := h m (by simp)
    obtain ⟨rs, hrs, hnames⟩ := ih (fun x hx => h x (by simp [hx]))
    refine ⟨m' :: rs, ?_, ?_⟩
    · rw [List.map_cons]
      simp [resolveAll, hm', hrs]
    · simp [hnames, hname]

theorem load_spec (env : MxEnv) (cache : Cache) (fs : FS) (d : Dep) (fatal : Bool)
    (mn mdir mjar : String) (cache1 : Cache) (p : PickledJMD)
    (rs : List JavaModuleDescriptor) (d2 : Dep)
    (hinfo : get_java_module_info env cache d true = .ok (some (mn, mdir, mjar), cache1))
    (hfs : dictGet (mdir ++ ".pickled") fs = some p)
    (hres : resolveAll (resolveEntry env) p.modulepath = some rs)
    (hdl : env.distributionByName p.dist = some d2) :
    JavaModuleDescriptor.load env cache fs d fatal =
      .ok (some (JavaModuleDescriptor.mk
        { name := p.name, exports := p.exports, requires := p.requires
          concealedRequires := p.concealedRequires, uses := p.uses
          provides := p.provides, packages := p.packages, conceals := p.conceals
          jarpath := p.jarpath, dist := some d2, boot := p.boot } rs), cache1) := by
  unfold JavaModuleDescriptor.load
  simp [hinfo, hfs, hres, hdl]

/-- C1: round-trip persistence — `save` followed by `load` (same
distribution, same environment) yields a descriptor whose `name`, `exports`,
`requires`, `uses` and `provides` are structurally equal to the original's
and whose `modulepath` members carry the same names in the same order.  The
hypotheses state that the distribution defines a module and that the
environment resolves each portable module-path reference back to a
descriptor of the same name (`as_java_module` / the JDK-module dict behave
as documented). -/
theorem mx_C1_save_load_roundtrip (env : MxEnv) (cache : Cache) (fs : FS)
    (jmd : JavaModuleDescriptor) (d : Dep) (fatal : Bool)
    (mn mdir mjar : String) (cache1 : Cache) (d2 : Dep)
    (hdist : jmd.dist = some d)
    (hinfo : get_java_module_info env cache d true = .ok (some (mn, mdir, mjar), cache1))
    (hresolve : ∀ m ∈ jmd.modulepath, ∃ m',
      resolveEntry env (portableRef m) = some m' ∧ m'.name = m.name)
    (hdl : env.distributionByName d.name = some d2) :
    ∃ out : JavaModuleDescriptor,
      JavaModuleDescriptor.load env (JavaModuleDescriptor.save env cache fs jmd false).cache
        (JavaModuleDescriptor.save env cache fs jmd false).fs d fatal
      = .ok (some out, cache1) ∧
      out.name = jmd.name ∧ out.exports = jmd.exports ∧ out.requires = jmd.requires ∧
      out.uses = jmd.uses ∧ out.provides = jmd.provides ∧
      out.modulepath.map JavaModuleDescriptor.name =
        jmd.modulepath.map JavaModuleDescriptor.name := by
  have hsave := save_spec env cache fs jmd d mn mdir mjar cache1 hdist hinfo
  obtain ⟨rs, hrs, hnames⟩ :=
    resolveAll_of_pointwise (resolveEntry env) jmd.modulepath hresolve
  have hinfo2 := get_java_module_info_idem env cache d true (mn, mdir, mjar) cache1 hinfo
  have hfs : dictGet (mdir ++ ".pickled")
      (dictSet (mdir ++ ".pickled") (mkPickled jmd d.name) fs) =
      some (mkPickled jmd d.name) := dictGet_dictSet_self _ _ _
  have hload := load_spec env cache1
    (dictSet (mdir ++ ".pickled") (mkPickled jmd d.name) fs) d fatal mn mdir mjar cache1
    (mkPickled jmd d.name) rs d2 hinfo2 hfs (by simpa [mkPickled] using hrs)
    (by simpa [mkPickled] using hdl)
  refine ⟨JavaModuleDescriptor.mk
    { name := jmd.name, exports := jmd.exports, requires := jmd.requires
      concealedRequires := jmd.concealedRequires, uses := jmd.uses
      provides := jmd.provides, packages := jmd.packages, conceals := jmd.conceals
      jarpath := jmd.jarpath, dist := some d2, boot := jmd.boot } rs,
    ?_, rfl, rfl, rfl, rfl, rfl, by simpa using hnames⟩
  rw [hsave]
  exact hload

theorem walkDeps_ok_mem (dist : Dep) (ds : List Dep) (acc res : List Dep)
    (h : walkDeps dist ds acc = .ok res) :
    ∀ d ∈ ds, ∃ a r, walkDep dist d a = .ok r := by
  induction ds generalizing acc with
  | nil =>
    intro d hd
    simp at hd
  | cons x rest ih =>
    intro d hd
    unfold walkDeps at h
    rcases hx : walkDep dist x acc with e | acc1
    · simp [hx] at h
    · simp only [hx] at h
      rcases List.mem_cons.mp hd with rfl | hd'
      · exact ⟨acc, acc1, hx⟩
      · exact ih acc1 h d hd'

theorem walkDep_ok_parts (dist d : Dep) (acc r : List Dep)
    (h : walkDep dist d acc = .ok r) (hp : prunedB d = false) :
    ∃ acc1, walkDeps dist d.deps acc = .ok acc1 ∧ visitDep dist acc1 d = .ok r := by
  rcases d with ⟨info, deps, mdeps⟩
  unfold walkDep at h
  simp only [hp, Bool.false_eq_true, if_false] at h
  rcases hw : walkDeps dist deps acc with e | acc1
  · simp [hw] at h
  · simp only [hw] at h
    exact ⟨acc1, hw, h⟩

theorem visitDep_ok_kind (dist : Dep) (acc r : List Dep) (d : Dep)
    (h : visitDep dist acc d = .ok r) :
    d.name = dist.name ∨ (d.isJavaProject || d.isJARDistribution) = true := by
  unfold visitDep at h
  by_cases h1 : d.name = dist.name
  · exact .inl h1
  · rw [if_neg h1] at h
    by_cases h2 : (d.isJavaProject || d.isJARDistribution) = true
    · exact .inr h2
    · rw [if_neg h2] at h
      exact absurd h (by simp)

theorem reachable_walkDep_ok (dist : Dep) (roots : List Dep) (acc res : List Dep)
    (hw : walkDeps dist roots acc = .ok res) :
    ∀ d, ReachableFrom roots d → ∃ a r, walkDep dist d a = .ok r := by
  intro d hreach
  induction hreach with
  | root hd => exact walkDeps_ok_mem dist roots acc res hw _ hd
  | step hc hcp hd ih =>
    obtain ⟨a, r, hcd⟩ := ih
    obtain ⟨acc1, hws, _⟩ := walkDep_ok_parts dist _ a r hcd hcp
    exact walkDeps_ok_mem dist _ a acc1 hws _ hd

theorem reachable_roots_ne_nil {roots : List Dep} {d : Dep}
    (h : ReachableFrom roots d) : roots ≠ [] := by
  induction h with
  | root hd => exact List.ne_nil_of_mem hd
  | step _ _ _ ih => exact ih

mutual

theorem walkDep_error_shape (dist d : Dep) (acc : List Dep) (e : MxError)
    (h : walkDep dist d acc = .error e) :
    ∃ x : Dep, (x.isJavaProject || x.isJARDistribution) = false ∧
      prunedB x = false ∧ x.name ≠ dist.name ∧
      e = ⟨"modules can (currently) only include JAR distributions and Java projects: "
        ++ x.name, some dist.name⟩ := by
  by_cases hp : prunedB d
  · unfold walkDep at h
    rw [if_pos hp] at h
    exact absurd h (by simp)
  · rcases d with ⟨info, deps, mdeps⟩
    unfold walkDep at h
    have hp' : prunedB (Dep.mk info deps mdeps) = false := by simpa using hp
    simp only [hp', Bool.false_eq_true, if_false] at h
    rcases hw : walkDeps dist deps acc with e' | acc1
    · simp only [hw] at h
      obtain rfl : e' = e := by simpa using h
      exact walkDeps_error_shape dist deps acc e' hw
    · simp only [hw] at h
      unfold visitDep at h
      by_cases h1 : (Dep.mk info deps mdeps).name = dist.name
      · rw [if_pos h1] at h
        exact absurd h (by simp)
      · rw [if_neg h1] at h
        by_cases h2 : ((Dep.mk info deps mdeps).isJavaProject ||
            (Dep.mk info deps mdeps).isJARDistribution) = true
        · rw [if_pos h2] at h
          exact absurd h (by simp)
        · rw [if_neg h2] at h
          refine ⟨Dep.mk info deps mdeps, by simpa using h2, hp', h1, ?_⟩
          exact (Except.error.inj h).symm

theorem walkDeps_error_shape (dist : Dep) (ds : List Dep) (acc : List Dep) (e : MxError)
    (h : walkDeps dist ds acc = .error e) :
    ∃ x : Dep, (x.isJavaProject || x.isJARDistribution) = false ∧
      prunedB x = false ∧ x.name ≠ dist.name ∧
      e = ⟨"modules can (currently) only include JAR distributions and Java projects: "
        ++ x.name, some dist.name⟩ := by
  match ds with
  | [] =>
    unfold walkDeps at h
    exact absurd h (by simp)
  | d :: rest =>
    unfold walkDeps at h
    rcases hx : walkDep dist d acc with e' | acc1
    · simp only [hx] at h
      obtain rfl : e' = e := by simpa using h
      exact walkDep_error_shape dist d acc e' hx
    · simp only [hx] at h
      exact walkDeps_error_shape dist rest acc1 e h

end

/-! ## Claim theorems -/

/-- C7 (amended): in the moduleDepsEqualDistDeps mode, for an artifact `app`
whose classpath holds the archive dependency `lib` (whose module `libMod`
defines and exports `com.lib` unqualified) and whose constituent Java
project imports `com.lib`, `make_java_module` yields
`requires = {libMod.name: {transitive-requires-keyword}}` — the classpath
loop records the transitive modifier and the later `setdefault` for the
resolved import keeps it, so the modifier set is not empty — with `com.lib`
absent from `concealedRequires` and `libMod` on the module path. -/
theorem mx_C7_requires_transitive_amended
    (env : MxEnv) (cache : Cache) (app lib appPrj : Dep)
    (libMod : JavaModuleDescriptor) (mn lm : String)
    (hmode : env.modeEqual = true)
    (hmn : app.info.moduleNameAttr = some mn)
    (hmn0 : mn ≠ "")
    (hcp : env.classpathEntries app = [lib])
    (hlibkind : lib.isJARDistribution = true)
    (hmo : env.moduleOf lib = some libMod)
    (hlm : libMod.name = lm)
    (hlmne : lm ≠ mn)
    (hlibexp : dictGet "com.lib" libMod.exports = some [])
    (harch : env.archivedDeps app = [appPrj])
    (hprjkind : appPrj.info.kind = .javaProject)
    (hdef : appPrj.info.definedJavaPackages = ["com.app"])
    (himp : appPrj.info.importedJavaPackages = ["com.lib"])
    (himp2 : appPrj.info.importsAttr = [])
    (huses : appPrj.info.usesAttr = [])
    (hrt : appPrj.info.runtimeDepsAttr = [])
    (hexpattr : appPrj.info.exportsAttr = none)
    (happkind : app.isJARDistribution = true)
    (hnames : env.archiveNames app = []) :
    make_java_module env cache app = .ok (some (JavaModuleDescriptor.mk
      { name := mn
        exports := [("com.app", [])]
        requires := [(lm, [env.transitiveKeyword])]
        concealedRequires := []
        uses := []
        provides := []
        packages := ["com.app"]
        conceals := []
        jarpath := some (mkInfoTriple env mn).2.2
        dist := some app
        boot := false } [libMod]), cache) := by
  have hinfo : get_java_module_info env cache app false =
      .ok (some (mkInfoTriple env mn), cache) := by
    unfold get_java_module_info
    rw [hmode]
    simp [hmn, hmn0]
  have hcls : (env.classpathEntries app).foldlM (classpathStep env app) ([], []) =
      .ok ([libMod], [(lm, [env.transitiveKeyword])]) := by
    rw [hcp]
    simp [classpathStep, hlibkind, hmo, hlm, dictSet]
  have hprj : Dep.isJavaProject appPrj = true := by
    simp [Dep.isJavaProject, hprjkind]
  have hprjjar : Dep.isJARDistribution appPrj = false := by
    simp [Dep.isJARDistribution, hprjkind]
  have hlook : lookup_package (libMod :: env.jdkModules) "com.lib" mn =
      some (libMod, .exported) := by
    simp [lookup_package, hlibexp]
  have hne1 : ("com.lib" : String) ≠ "com.app" := by decide
  have hne2 : ("<package-info>" : String) ≠ "com.app" := by decide
  unfold make_java_module
  simp [hinfo, hmode, hcls, harch, hprj, hprjjar, happkind, synthStep, setUnion,
    setAdd, hdef, himp, himp2, huses, hrt, hexpattr, expand_package_info, hlook,
    hlm, hlmne, dictSetdefault, scanArchive, hnames, JavaModuleDescriptor.init,
    JavaModuleDescriptor.initPackages, hne1, hne2, mkInfoTriple, pure, Except.pure,
    bind, Except.bind]

/-- C8: in the explicit-moduledeps mode, whenever a dependency reachable
from the `moduledeps` roots (not pruned as a JRE/JDK library, and not the
distribution itself) is neither a JAR distribution nor a Java project,
`get_module_deps` aborts instead of returning: either a root fails the
JAR-distribution check, or the walk's visitor aborts — in both cases the
fatal error names an offending dependency and carries the distribution as
context. -/
theorem mx_C8_invalid_dependency_kind_fatal (env : MxEnv) (cache : Cache)
    (dist bad : Dep)
    (hmode : env.modeEqual = false)
    (hnocache : dictGet dist.name cache = none)
    (hreach : ReachableFrom dist.moduledeps bad)
    (hpruned : prunedB bad = false)
    (hbadkind : (bad.isJavaProject || bad.isJARDistribution) = false)
    (hnotdist : bad.name ≠ dist.name) :
    (∃ r, r ∈ dist.moduledeps ∧ r.isJARDistribution = false ∧
      get_module_deps env cache dist =
        .error ⟨"moduledeps can (currently) only include JAR distributions: " ++ r.name,
          some dist.name⟩) ∨
    (∃ x : Dep, (x.isJavaProject || x.isJARDistribution) = false ∧
      prunedB x = false ∧ x.name ≠ dist.name ∧
      get_module_deps env cache dist =
        .error ⟨"modules can (currently) only include JAR distributions and Java projects: "
          ++ x.name, some dist.name⟩) := by
  have hne : dist.moduledeps ≠ [] := reachable_roots_ne_nil hreach
  have hnotempty : dist.moduledeps.isEmpty = false := by
    rcases hmd : dist.moduledeps with _ | ⟨a, b⟩
    · exact absurd hmd hne
    · rfl
  rcases hf : dist.moduledeps.find? (fun r => !r.isJARDistribution) with _ | r
  · rcases hw : walkDeps dist dist.moduledeps [] with e | md
    · obtain ⟨x, hx1, hx2, hx3, rfl⟩ :=
        walkDeps_error_shape dist dist.moduledeps [] e hw
      right
      exact ⟨x, hx1, hx2, hx3,
        by simp [get_module_deps, hmode, hnocache, hnotempty, hf, hw]⟩
    · obtain ⟨a, r', hok⟩ := reachable_walkDep_ok dist dist.moduledeps [] md hw bad hreach
      obtain ⟨acc1, _, hv⟩ := walkDep_ok_parts dist bad a r' hok hpruned
      rcases visitDep_ok_kind dist acc1 r' bad hv with h1 | h1
      · exact absurd h1 hnotdist
      · rw [hbadkind] at h1
        exact absurd h1 (by simp)
  · left
    refine ⟨r, List.mem_of_find?_eq_some hf, ?_, ?_⟩
    · have hr := List.find?_some hf
      simpa using hr
    · simp [get_module_deps, hmode, hnocache, hnotempty, hf]

/-- C6 (amended): `as_module_info` is byte-identical across iteration orders
of the input maps and sets — requires (and modifier sets), exports (and
target sets), uses, provides entries, conceals and concealed-requires — and
across descriptors agreeing on name, jarpath, dist name and module-path
member names; for the `provides` lines, however, the providers of each
service are joined in their given order, so byte-identity additionally needs
each service's provider sequence given in the same order (the source does
not sort providers). -/
theorem mx_C6_rendering_determinism_amended (j1 j2 : JavaModuleDescriptor)
    (hname : j1.name = j2.name)
    (hreq : List.Perm (canonVals j1.requires) (canonVals j2.requires))
    (hreqnd : (j1.requires.map Prod.fst).Nodup)
    (hexp : List.Perm (canonVals j1.exports) (canonVals j2.exports))
    (hexpnd : (j1.exports.map Prod.fst).Nodup)
    (huses : List.Perm j1.uses j2.uses)
    (hprov : List.Perm j1.provides j2.provides)
    (hprovnd : (j1.provides.map Prod.fst).Nodup)
    (hconc : List.Perm j1.conceals j2.conceals)
    (hcr : List.Perm (canonVals j1.concealedRequires) (canonVals j2.concealedRequires))
    (hcrnd : (j1.concealedRequires.map Prod.fst).Nodup)
    (hjar : j1.jarpath = j2.jarpath)
    (hdist : j1.dist.map Dep.name = j2.dist.map Dep.name)
    (hmp : j1.modulepath.map JavaModuleDescriptor.name =
      j2.modulepath.map JavaModuleDescriptor.name) :
    j1.as_module_info = j2.as_module_info := by
  have hlen : ∀ v : List String, (sortStrs v).length = v.length :=
    fun v => (sortStrs_perm v).length_eq
  have hS1 : (sortPairs j1.requires).map (fun p =>
        "    requires " ++
          (if p.2.length ≠ 0 then String.intercalate " " (sortStrs p.2) ++ " " else "") ++
          p.1 ++ ";") =
      (sortPairs j2.requires).map (fun p =>
        "    requires " ++
          (if p.2.length ≠ 0 then String.intercalate " " (sortStrs p.2) ++ " " else "") ++
          p.1 ++ ";") := by
    have hfun : (fun p : String × List String =>
        "    requires " ++
          (if p.2.length ≠ 0 then String.intercalate " " (sortStrs p.2) ++ " " else "") ++
          p.1 ++ ";") =
        (fun p : String × List String =>
          "    requires " ++
            (if (sortStrs p.2).length ≠ 0 then
              String.intercalate " " (sortStrs p.2) ++ " " else "") ++
            p.1 ++ ";") := by
      funext p
      rw [hlen p.2]
    rw [hfun]
    exact mapSortPairs_congr j1.requires j2.requires
      (fun k v => "    requires " ++
        (if v.length ≠ 0 then String.intercalate " " v ++ " " else "") ++ k ++ ";")
      hreq hreqnd
  have hS2 : (sortPairs j1.exports).map (fun p =>
        "    exports " ++ p.1 ++
          (if p.2.length ≠ 0 then " to " ++ String.intercalate ", " (sortStrs p.2) else "")
          ++ ";") =
      (sortPairs j2.exports).map (fun p =>
        "    exports " ++ p.1 ++
          (if p.2.length ≠ 0 then " to " ++ String.intercalate ", " (sortStrs p.2) else "")
          ++ ";") := by
    have hfun : (fun p : String × List String =>
        "    exports " ++ p.1 ++
          (if p.2.length ≠ 0 then " to " ++ String.intercalate ", " (sortStrs p.2) else "")
          ++ ";") =
        (fun p : String × List String =>
          "    exports " ++ p.1 ++
            (if (sortStrs p.2).length ≠ 0 then
              " to " ++ String.intercalate ", " (sortStrs p.2) else "") ++ ";") := by
      funext p
      rw [hlen p.2]
    rw [hfun]
    exact mapSortPairs_congr j1.exports j2.exports
      (fun k v => "    exports " ++ k ++
        (if v.length ≠ 0 then " to " ++ String.intercalate ", " v else "") ++ ";")
      hexp hexpnd
  have hS9 : ((sortPairs j1.concealedRequires).map (fun p =>
        (sortStrs p.2).map (fun package =>
          "    // concealed-requires: " ++ p.1 ++ "/" ++ package))) =
      ((sortPairs j2.concealedRequires).map (fun p =>
        (sortStrs p.2).map (fun package =>
          "    // concealed-requires: " ++ p.1 ++ "/" ++ package))) :=
    mapSortPairs_congr j1.concealedRequires j2.concealedRequires
      (fun k v => v.map (fun package =>
        "    // concealed-requires: " ++ k ++ "/" ++ package)) hcr hcrnd
  have hlmp : j1.modulepath.length = j2.modulepath.length := by
    have := congrArg List.length hmp
    simpa using this
  have hlcr : j1.concealedRequires.length = j2.concealedRequires.length := by
    have := hcr.length_eq
    simpa [canonVals] using this
  unfold JavaModuleDescriptor.as_module_info
  rw [hname, hS1, hS2, sortStrs_eq_of_perm huses, sortPairs_eq_of_perm hprov hprovnd,
    sortStrs_eq_of_perm hconc, hjar, hdist, hlmp, hmp, hlcr, hS9]

/-! ## Other claim theorems -/

/-- C2: constructing a `JavaModuleDescriptor` fails (assertion violation)
whenever `exports` is non-empty and its key set is not a subset of the
`packages` argument; every successfully constructed descriptor satisfies
`exports.keys() ⊆ packages`. -/
theorem mx_C2_constructor_invariant (nm : String)
    (exps reqs provs : List (String × List String)) (uss : List String)
    (ps : List String) (cr : Option (List (String × List String)))
    (jp : Option String) (dst : Option Dep) (mp : List JavaModuleDescriptor)
    (bt : Bool) :
    (exps ≠ [] → ¬ (∀ k ∈ exps.map Prod.fst, k ∈ ps) →
      JavaModuleDescriptor.init nm exps reqs uss provs (some ps) cr jp dst mp bt = none) ∧
    (∀ (pkgs : Option (List String)) (jmd : JavaModuleDescriptor),
      JavaModuleDescriptor.init nm exps reqs uss provs pkgs cr jp dst mp bt = some jmd →
      ∀ k ∈ jmd.exports.map Prod.fst, k ∈ jmd.packages) := by
  constructor
  · intro hne hnsub
    unfold JavaModuleDescriptor.init
    rw [if_neg]
    intro hcond
    rcases hcond with hlen | hall
    · exact hne (List.length_eq_zero.mp hlen)
    · refine hnsub (fun k hk => ?_)
      have hk' : k ∈ (exps.map Prod.fst).dedup := List.mem_dedup.mpr hk
      have := List.all_eq_true.mp hall k hk'
      have := of_decide_eq_true this
      simpa [JavaModuleDescriptor.initPackages, List.mem_dedup] using this
  · intro pkgs jmd h
    unfold JavaModuleDescriptor.init at h
    split at h
    · next hcond =>
      obtain rfl : JavaModuleDescriptor.mk _ mp = jmd := Option.some.inj h
      intro k hk
      simp only [JavaModuleDescriptor.exports_mk] at hk
      simp only [JavaModuleDescriptor.packages_mk]
      rcases hcond with hlen | hall
      · rw [List.length_eq_zero.mp hlen] at hk
        simp at hk
      · have hk' : k ∈ (exps.map Prod.fst).dedup := List.mem_dedup.mpr hk
        exact of_decide_eq_true (List.all_eq_true.mp hall k hk')
    · exact absurd h (by simp)

/-- C3: every successfully constructed descriptor has
`conceals = packages − exports.keys()` (as sets); when the `packages`
argument is omitted, `packages` equals the export key set and `conceals` is
empty. -/
theorem mx_C3_conceals_complement (nm : String)
    (exps reqs provs : List (String × List String)) (uss : List String)
    (cr : Option (List (String × List String))) (jp : Option String)
    (dst : Option Dep) (mp : List JavaModuleDescriptor) (bt : Bool) :
    (∀ (pkgs : Option (List String)) (jmd : JavaModuleDescriptor),
      JavaModuleDescriptor.init nm exps reqs uss provs pkgs cr jp dst mp bt = some jmd →
      jmd.conceals.toFinset = jmd.packages.toFinset \ (jmd.exports.map Prod.fst).toFinset) ∧
    (∀ jmd : JavaModuleDescriptor,
      JavaModuleDescriptor.init nm exps reqs uss provs none cr jp dst mp bt = some jmd →
      jmd.packages.toFinset = (jmd.exports.map Prod.fst).toFinset ∧ jmd.conceals = []) := by
  have hmain : ∀ (pkgs : Option (List String)) (jmd : JavaModuleDescriptor),
      JavaModuleDescriptor.init nm exps reqs uss provs pkgs cr jp dst mp bt = some jmd →
      jmd.exports = exps ∧
      jmd.packages = JavaModuleDescriptor.initPackages exps pkgs ∧
      jmd.conceals = (JavaModuleDescriptor.initPackages exps pkgs).filter
        (fun p => p ∉ (exps.map Prod.fst).dedup) := by
    intro pkgs jmd h
    unfold JavaModuleDescriptor.init at h
    split at h
    · obtain rfl : JavaModuleDescriptor.mk _ mp = jmd := Option.some.inj h
      exact ⟨rfl, rfl, rfl⟩
    · exact absurd h (by simp)
  constructor
  · intro pkgs jmd h
    obtain ⟨hexp, hpk, hcon⟩ := hmain pkgs jmd h
    rw [hexp, hpk, hcon]
    ext x
    simp [List.mem_filter, Finset.mem_sdiff, List.mem_dedup]
  · intro jmd h
    obtain ⟨hexp, hpk, hcon⟩ := hmain none jmd h
    constructor
    · rw [hexp, hpk]
      ext x
      simp [JavaModuleDescriptor.initPackages, List.mem_dedup]
    · rw [hcon]
      simp [JavaModuleDescriptor.initPackages, List.mem_dedup]

/-- C4: `lookup_package` is order-sensitive with first-match-wins: when both
`A` and `B` have package `p` among their export keys, the module path
`[A, B]` resolves `p` to `A`; and a module path on which no descriptor has
`p` in its exports or conceals resolves to `(None, None)`. -/
theorem mx_C4_lookup_first_match (A B : JavaModuleDescriptor) (p importer : String)
    (mp : List JavaModuleDescriptor) :
    (p ∈ A.exports.map Prod.fst → p ∈ B.exports.map Prod.fst →
      (lookup_package [A, B] p importer).map Prod.fst = some A) ∧
    ((∀ jmd ∈ mp, p ∉ jmd.exports.map Prod.fst ∧ p ∉ jmd.conceals) →
      lookup_package mp p importer = none) := by
  constructor
  · intro hA _
    obtain ⟨v, hv⟩ := dictGet_isSome_of_mem p A.exports hA
    simp only [lookup_package, hv]
    split <;> rfl
  · intro hnone
    induction mp with
    | nil => rfl
    | cons jmd rest ih =>
      have h1 := hnone jmd (by simp)
      have h2 : dictGet p jmd.exports = none := (dictGet_eq_none_iff _ _).mpr h1.1
      rw [lookup_package, h2, if_neg h1.2]
      exact ih (fun x hx => hnone x (by simp [hx]))

/-- C5: `lookup_package` visibility classification: a qualified export to
`{M1}` looks concealed to an importer `M2 ≠ M1` and exported to `M1`; an
unqualified export (empty target set) looks exported to every importer; a
package found only in `conceals` looks concealed. -/
theorem mx_C5_visibility_classification (d : JavaModuleDescriptor)
    (p M1 M2 : String) :
    (dictGet p d.exports = some [M1] → M2 ≠ M1 →
      lookup_package [d] p M2 = some (d, .concealed)) ∧
    (dictGet p d.exports = some [M1] →
      lookup_package [d] p M1 = some (d, .exported)) ∧
    (dictGet p d.exports = some [] → ∀ imp,
      lookup_package [d] p imp = some (d, .exported)) ∧
    (dictGet p d.exports = none → p ∈ d.conceals → ∀ imp,
      lookup_package [d] p imp = some (d, .concealed)) := by
  refine ⟨?_, ?_, ?_, ?_⟩
  · intro h hne
    rw [lookup_package, h]
    simp [hne]
  · intro h
    rw [lookup_package, h]
    simp
  · intro h imp
    rw [lookup_package, h]
    simp
  · intro h hc imp
    rw [lookup_package, h]
    simp [hc]

/-- C10: `save` leaves the live descriptor unchanged — after the call,
whether the pickling write succeeds or raises, the descriptor again holds
its original `modulepath` and `dist`; and for a descriptor with no
originating distribution, `save` changes nothing and returns `None`. -/
theorem mx_C10_save_restores_live_descriptor (env : MxEnv) (cache : Cache)
    (fs : FS) (jmd : JavaModuleDescriptor) (dumpRaises : Bool) :
    (JavaModuleDescriptor.save env cache fs jmd dumpRaises).live = jmd ∧
    (jmd.dist = none →
      JavaModuleDescriptor.save env cache fs jmd dumpRaises =
        ⟨jmd, fs, cache, .ok ()⟩) := by
  have hrestore :
      JavaModuleDescriptor.mk { jmd.fields with dist := jmd.dist } jmd.modulepath = jmd := by
    rcases jmd with ⟨f, mp⟩
    rfl
  constructor
  · unfold JavaModuleDescriptor.save
    split
    · rfl
    · split
      · rfl
      · rfl
      · split
        · exact hrestore
        · exact hrestore
  · intro h
    unfold JavaModuleDescriptor.save
    rw [h]

/-- C9: in the explicit-moduledeps mode `get_module_deps` is memoized — a
cached entry is returned as-is (independently of the dependency graph), and
a second call after a successful first call returns the same list and leaves
the cache unchanged. -/
theorem mx_C9_module_deps_memoized (env : MxEnv) (cache : Cache) (dist : Dep)
    (hmode : env.modeEqual = false) :
    (∀ l, dictGet dist.name cache = some l →
      get_module_deps env cache dist = .ok (l, cache)) ∧
    (∀ r c1, get_module_deps env cache dist = .ok (r, c1) →
      get_module_deps env c1 dist = .ok (r, c1)) :=
  ⟨fun l hl => get_module_deps_cache_hit env cache dist hmode l hl,
   fun r c1 h => get_module_deps_idem env cache dist hmode r c1 h⟩

/-! ## Witnesses -/

/-- Witness for C2 at a concrete violating input. -/
theorem mx_C2_constructor_invariant_witness :
    JavaModuleDescriptor.init "m" [("p", [])] [] [] [] (some ["q"]) none none none []
      false = none :=
  (mx_C2_constructor_invariant "m" [("p", [])] [] [] [] ["q"] none none none []
    false).1 (by decide) (by decide)

/-- Witness for C3 at a concrete input with `packages` omitted. -/
theorem mx_C3_conceals_complement_witness :
    c3jmd.packages.toFinset = (c3jmd.exports.map Prod.fst).toFinset ∧
      c3jmd.conceals = [] :=
  (mx_C3_conceals_complement "m" [("a", [])] [] [] [] none none none [] false).2
    c3jmd rfl

/-- Witness for C4 at concrete descriptors. -/
theorem mx_C4_lookup_first_match_witness :
    (lookup_package [c4A, c4B] "p" "m").map Prod.fst = some c4A ∧
      lookup_package [c4A] "z" "m" = none :=
  ⟨(mx_C4_lookup_first_match c4A c4B "p" "m" [c4A]).1 (by decide) (by decide),
   (mx_C4_lookup_first_match c4A c4B "z" "m" [c4A]).2 (by decide)⟩

/-- Witness for C5 at a concrete descriptor. -/
theorem mx_C5_visibility_classification_witness :
    lookup_package [c5d] "p" "M2" = some (c5d, .concealed) ∧
    lookup_package [c5d] "p" "M1" = some (c5d, .exported) ∧
    lookup_package [c5d] "q" "Z" = some (c5d, .exported) ∧
    lookup_package [c5d] "r" "Z" = some (c5d, .concealed) :=
  ⟨(mx_C5_visibility_classification c5d "p" "M1" "M2").1 rfl (by decide),
   (mx_C5_visibility_classification c5d "p" "M1" "M2").2.1 rfl,
   (mx_C5_visibility_classification c5d "q" "M1" "M2").2.2.1 rfl "Z",
   (mx_C5_visibility_classification c5d "r" "M1" "M2").2.2.2 rfl (by decide) "Z"⟩

/-- Witness for C10 at a platform-module descriptor. -/
theorem mx_C10_save_restores_live_descriptor_witness :
    JavaModuleDescriptor.save envTrivial [] [] c10jmd false = ⟨c10jmd, [], [], .ok ()⟩ :=
  (mx_C10_save_restores_live_descriptor envTrivial [] [] c10jmd false).2 rfl

/-- Witness for C1 at a concrete descriptor with a distribution-derived and
a JDK module on its module path. -/
theorem mx_C1_save_load_roundtrip_witness :
    ∃ out : JavaModuleDescriptor,
      JavaModuleDescriptor.load c1env
          (JavaModuleDescriptor.save c1env [] [] c1jmd false).cache
          (JavaModuleDescriptor.save c1env [] [] c1jmd false).fs c1dist true
        = .ok (some out, []) ∧
      out.name = c1jmd.name ∧ out.exports = c1jmd.exports ∧
      out.requires = c1jmd.requires ∧ out.uses = c1jmd.uses ∧
      out.provides = c1jmd.provides ∧
      out.modulepath.map JavaModuleDescriptor.name =
        c1jmd.modulepath.map JavaModuleDescriptor.name :=
  mx_C1_save_load_roundtrip c1env [] [] c1jmd c1dist true
    "my.dist" "out/modules/my.dist" "out/modules/my.dist.jar" [] c1dist rfl rfl
    (by
      intro m hm
      simp only [c1jmd, JavaModuleDescriptor.modulepath_mk, List.mem_cons,
        List.not_mem_nil, or_false] at hm
      rcases hm with rfl | rfl
      · exact ⟨c1libMod, by rfl, rfl⟩
      · exact ⟨c1jdkMod, by rfl, rfl⟩)
    rfl

/-- C6 is refuted as stated: `c6A` and `c6B` have identical field contents
(`provides` maps the same service to the same provider set, merely iterated
in a different order), yet `as_module_info` renders different bytes, because
the providers are joined in iteration order without sorting. -/
theorem mx_C6_rendering_determinism_counterexample :
    c6A.name = c6B.name ∧ c6A.exports = c6B.exports ∧ c6A.requires = c6B.requires ∧
    c6A.concealedRequires = c6B.concealedRequires ∧ c6A.uses = c6B.uses ∧
    c6A.packages = c6B.packages ∧ c6A.conceals = c6B.conceals ∧
    c6A.jarpath = c6B.jarpath ∧ c6A.dist = c6B.dist ∧
    c6A.modulepath = c6B.modulepath ∧
    c6A.provides.map Prod.fst = c6B.provides.map Prod.fst ∧
    List.Forall₂ (fun v w => List.Perm v.2 w.2) c6A.provides c6B.provides ∧
    c6A.as_module_info ≠ c6B.as_module_info := by
  refine ⟨rfl, rfl, rfl, rfl, rfl, rfl, rfl, rfl, rfl, rfl, rfl, ?_, ?_⟩
  · exact List.Forall₂.cons (List.Perm.swap "a.A" "b.B" []) List.Forall₂.nil
  · decide

/-- Witness for the amended C6 at two concrete descriptors with every map
and set permuted (providers kept in identical order). -/
theorem mx_C6_rendering_determinism_amended_witness :
    c6WA.as_module_info = c6WB.as_module_info :=
  mx_C6_rendering_determinism_amended c6WA c6WB rfl (by decide) (by decide)
    (by decide) (by decide) (by decide) (by decide) (by decide) (by decide)
    (by decide) (by decide) rfl rfl rfl

/-- C7 is refuted as stated: in the concrete `app`/`lib` scenario the
synthesized module's `requires` entry for `lib.module` carries the
transitive-requires keyword set by the classpath loop, not an empty
modifier set. -/
theorem mx_C7_requires_empty_modifier_counterexample :
    c7requiresOfLib = some ["transitive"] ∧
    c7requiresOfLib ≠ (some [] : Option (List String)) := by
  constructor
  · decide
  · decide

/-- Witness for the amended C7 at the concrete `app`/`lib` scenario. -/
theorem mx_C7_requires_transitive_amended_witness :
    make_java_module c7env [] c7app = .ok (some (JavaModuleDescriptor.mk
      { name := "app.module"
        exports := [("com.app", [])]
        requires := [("lib.module", ["transitive"])]
        concealedRequires := []
        uses := []
        provides := []
        packages := ["com.app"]
        conceals := []
        jarpath := some (mkInfoTriple c7env "app.module").2.2
        dist := some c7app
        boot := false } [c7libMod]), []) :=
  mx_C7_requires_transitive_amended c7env [] c7app c7lib c7appPrj c7libMod
    "app.module" "lib.module" rfl rfl (by decide) rfl rfl rfl rfl (by decide)
    rfl rfl rfl rfl rfl rfl rfl rfl rfl rfl rfl

/-- Witness for C8 at a concrete distribution whose walk reaches a
dependency of an invalid kind. -/
theorem mx_C8_invalid_dependency_kind_fatal_witness :
    (∃ r, r ∈ c8dist.moduledeps ∧ r.isJARDistribution = false ∧
      get_module_deps envNoEq [] c8dist =
        .error ⟨"moduledeps can (currently) only include JAR distributions: " ++ r.name,
          some c8dist.name⟩) ∨
    (∃ x : Dep, (x.isJavaProject || x.isJARDistribution) = false ∧
      prunedB x = false ∧ x.name ≠ c8dist.name ∧
      get_module_deps envNoEq [] c8dist =
        .error ⟨"modules can (currently) only include JAR distributions and Java projects: "
          ++ x.name, some c8dist.name⟩) :=
  mx_C8_invalid_dependency_kind_fatal envNoEq [] c8dist c8bad rfl rfl
    (ReachableFrom.step (ReachableFrom.root (List.mem_singleton.mpr rfl)) rfl
      (List.mem_singleton.mpr rfl))
    rfl rfl (by decide)

/-- Witness for C9 at a concrete cached distribution. -/
theorem mx_C9_module_deps_memoized_witness :
    get_module_deps envNoEq [("d", [])] dep0 = .ok ([], [("d", [])]) :=
  (mx_C9_module_deps_memoized envNoEq [("d", [])] dep0 rfl).1 [] rfl

end MxJavaModules
